import Mathlib

/-!
Verification development for the `polygun_arena_demo` shooting-gallery game.

The gameplay simulation layer of the repository is embedded shallowly:

* `EventBus.js` — priority-ordered pub/sub (singleton constructor);
* `helpers/constants.js` — game constants and `getEffectiveKillCountToWin`;
* `TargetController.js` — target layout generation, hit application,
  elimination/movement animation, reset;
* `PlayerController.js` — weapon ammo/fire/reload state machine and
  the recorded initial snapshot;
* `Game.js` — rotation integration, ray hit check, win condition, reset;
* `GameManager.js` — the per-frame update loop.

Numeric game state (positions, rotations, times) is modelled over `ℚ`
with exact arithmetic.  The irrational constants of the source
(`Math.PI * 0.1` for the pitch clamp, `-Math.PI / 2` for the elimination
rotation, angles fed to trigonometry) and the transcendental functions
`Math.sin` / `Math.cos` / `Math.random` are kept as parameters of the
model; no claim below depends on their concrete values.
-/

/-- 3D vector over `ℚ`, mirroring the `THREE.Vector3` values flowing through
the gameplay code. -/
structure Vec3 where
  x : ℚ
  y : ℚ
  z : ℚ
deriving DecidableEq, Repr

/-- Euler rotation triple over `ℚ`, mirroring `THREE.Euler`. -/
structure Euler where
  x : ℚ
  y : ℚ
  z : ℚ
deriving DecidableEq, Repr

/-- Source `THREE.MathUtils.lerp(a, b, t) = a + (b - a) * t`. -/
def lerp (a b t : ℚ) : ℚ := a + (b - a) * t

/-- Source `Math.max(lo, Math.min(hi, v))`, the clamping pattern used by
`Game.updateRotation` and `PlayerController.update`. -/
def clampQ (lo hi v : ℚ) : ℚ := max lo (min hi v)

namespace EventBus

/-- One entry of `EventBus._listeners[event]`: the pushed object
`{ cb, order, seq }` (`EventBus.on`, EventBus.js line 24).  Callbacks are
identified by a numeric id; event names are numeric ids as well. -/
structure Listener where
  cb : Nat
  order : Int
  seq : Nat
deriving DecidableEq, Repr

/-- The comparator passed to `Array.prototype.sort` in `EventBus.on`
(EventBus.js lines 27–29), as a total preorder:
`(a, b) => a.order === b.order ? a.seq - b.seq : a.order - b.order`. -/
def listenerLe (a b : Listener) : Bool :=
  if a.order = b.order then a.seq ≤ b.seq else a.order < b.order

/-- The state of one `EventBus` instance: the listener table
`_listeners` (an association list keyed by event name) and the global
tie-break counter `_seq`. -/
structure Bus where
  listeners : List (Nat × List Listener)
  seq : Nat
deriving Repr

/-- A freshly constructed bus: `_listeners = {}`, `_seq = 0`. -/
def emptyBus : Bus := ⟨[], 0⟩

/-- Source `this._listeners[event]`, defaulting to the empty list when the key is
absent (`if (!this._listeners[event]) this._listeners[event] = []`). -/
def getL (bus : Bus) (event : Nat) : List Listener :=
  match bus.listeners.lookup event with
  | some ls => ls
  | none => []

/-- Source `EventBus.on(event, cb, order)` (the name `on` is a reserved token): push `{cb, order, seq: this._seq++}`
and keep the array sorted by `(order, seq)` (EventBus.js lines 20–30). -/
def on' (bus : Bus) (event : Nat) (cb : Nat) (order : Int) : Bus :=
  { listeners :=
      (event, ((getL bus event) ++ [(⟨cb, order, bus.seq⟩ : Listener)]).mergeSort listenerLe)
        :: bus.listeners,
    seq := bus.seq + 1 }

/-- Source `EventBus.emit(event, ...)` invokes the callbacks of
`this._listeners[event].slice()` in array order (EventBus.js lines 43–47);
the model returns the invoked callback ids in invocation order. -/
def emit (bus : Bus) (event : Nat) : List Nat :=
  (getL bus event).map (·.cb)

/-- One `on` registration request: event name, callback id, priority. -/
structure Reg where
  event : Nat
  cb : Nat
  order : Int

/-- Apply a sequence of `on` registrations to a bus, in order. -/
def register (bus : Bus) (rs : List Reg) : Bus :=
  rs.foldl (fun b r => on' b r.event r.cb r.order) bus

/-- The listeners that a registration sequence `rs` creates for `event`,
in registration order, with sequence numbers counting up from `seq0`. -/
def regsFor (event : Nat) (rs : List Reg) (seq0 : Nat) : List Listener :=
  match rs with
  | [] => []
  | r :: rest =>
      (if r.event = event then [⟨r.cb, r.order, seq0⟩] else [])
        ++ regsFor event rest (seq0 + 1)

/-- The global static state behind `new EventBus()`:
`EventBus._instance` (as the id of the singleton object, `none` before the
first construction), an allocation counter for fresh object identities, and
the singleton's listener table. -/
structure BusWorld where
  instanceId : Option Nat
  nextId : Nat
  bus : Bus

/-- Source `new EventBus()` (EventBus.js lines 2–12): return the saved instance if
there is one, otherwise allocate a fresh object, record it in
`EventBus._instance`, and initialise its `_listeners` / `_seq`. -/
def newEventBus (w : BusWorld) : Nat × BusWorld :=
  match w.instanceId with
  | some i => (i, w)
  | none =>
      (w.nextId,
        { instanceId := some w.nextId, nextId := w.nextId + 1, bus := emptyBus })

/-- Source `busRef.on(event, cb, order)` through the object with identity `id`:
it touches the shared table exactly when `id` is the singleton. -/
def onVia (w : BusWorld) (id : Nat) (event cb : Nat) (order : Int) : BusWorld :=
  if w.instanceId = some id then { w with bus := on' w.bus event cb order } else w

/-- Source `busRef.emit(event)` through the object with identity `id`. -/
def emitVia (w : BusWorld) (id : Nat) (event : Nat) : List Nat :=
  if w.instanceId = some id then emit w.bus event else []

/-- An operation against the event-bus world: a `new EventBus()` evaluation
or a registration through some previously obtained reference. -/
inductive BOp
  | construct
  | onOp (id : Nat) (event cb : Nat) (order : Int)

/-- Run a list of operations, collecting the ids returned by the
`new EventBus()` evaluations in order. -/
def runOps (w : BusWorld) (ops : List BOp) : BusWorld × List Nat :=
  match ops with
  | [] => (w, [])
  | BOp.construct :: rest =>
      let (i, w') := newEventBus w
      let (w'', is) := runOps w' rest
      (w'', i :: is)
  | BOp.onOp id e cb ord :: rest => runOps (onVia w id e cb ord) rest

end EventBus

namespace TargetController

/-- Movement axis selector, `config.movement.axis ∈ {'x', 'z', 'both'}`. -/
inductive MoveAxis
  | x
  | z
  | both
deriving DecidableEq, Repr

/-- The optional `movement` descriptor of a target configuration. -/
structure Movement where
  enabled : Bool
  amplitude : ℚ
  speed : ℚ
  axis : MoveAxis
deriving DecidableEq, Repr

/-- The `bounds` rectangle of the scattered layout. -/
structure Bounds where
  minX : ℚ
  maxX : ℚ
  minZ : ℚ
  maxZ : ℚ
  y : ℚ
deriving DecidableEq, Repr

/-- The `layout` strings dispatched on by
`TargetController.calculateTargetPositions`. -/
inductive Layout
  | linear
  | circular
  | grid
  | v_formation
  | scattered
  | pyramid
  | moving
deriving DecidableEq, Repr

/-- A target configuration object (the duck-typed preset objects of
`TARGET_CONFIGS` in constants.js).  Every optional field is present with a
zero default; each layout reads only the fields its preset carries.
`spacingX`/`spacingZ` model the `spacing: {x, z}` object of the grid and
pyramid presets, `spacing` the scalar spacing of the other presets. -/
structure TargetConfig where
  layout : Layout
  count : Nat := 0
  spacing : ℚ := 0
  spacingX : ℚ := 0
  spacingZ : ℚ := 0
  basePosition : Vec3 := ⟨0, 0, 0⟩
  centerPosition : Vec3 := ⟨0, 0, 0⟩
  radius : ℚ := 0
  startAngle : ℚ := 0
  angle : ℚ := 0
  rows : Nat := 0
  cols : Nat := 0
  baseCount : Nat := 0
  bounds : Bounds := ⟨0, 0, 0, 0, 0⟩
  minDistance : ℚ := 0
  scale : ℚ := 0
  hp : Int := 0
  movement : Option Movement := none

/-- Source `calculateLinearPositions` (TargetController.js lines 85–100):
`basePosition + (i * spacing, 0, 0)` for `i < count`. -/
def calculateLinearPositions (cfg : TargetConfig) : List Vec3 :=
  (List.range cfg.count).map fun (i : Nat) =>
    ⟨cfg.basePosition.x + (i : ℚ) * cfg.spacing, cfg.basePosition.y, cfg.basePosition.z⟩

/-- Source `calculateCircularPositions` (lines 102–118).  `piQ` stands for the
irrational `Math.PI`; `cosF`/`sinF` stand for `Math.cos`/`Math.sin`. -/
def calculateCircularPositions (sinF cosF : ℚ → ℚ) (piQ : ℚ)
    (cfg : TargetConfig) : List Vec3 :=
  let angleStep := 2 * piQ / cfg.count
  (List.range cfg.count).map fun (i : Nat) =>
    let angle := cfg.startAngle + (i : ℚ) * angleStep
    ⟨cfg.centerPosition.x + cfg.radius * cosF angle,
     cfg.centerPosition.y,
     cfg.centerPosition.z + cfg.radius * sinF angle⟩

/-- Source `calculateGridPositions` (lines 120–143): a `rows × cols` nested loop,
`basePosition + (col * spacing.x, 0, row * spacing.z)`. -/
def calculateGridPositions (cfg : TargetConfig) : List Vec3 :=
  (List.range cfg.rows).flatMap fun (row : Nat) =>
    (List.range cfg.cols).map fun (col : Nat) =>
      ⟨cfg.basePosition.x + (col : ℚ) * cfg.spacingX,
       cfg.basePosition.y,
       cfg.basePosition.z + (row : ℚ) * cfg.spacingZ⟩

/-- Source `calculateVFormationPositions` (lines 145–175): the centre point, a left
wing of `⌊count/2⌋` points, a right wing of `⌊(count-1)/2⌋` points, then
`positions.slice(0, count)`.  (For `count = 0` the JS right-wing bound
`Math.floor(-1/2) = -1` gives an empty loop, as does the `Nat` bound 0.) -/
def calculateVFormationPositions (sinF cosF : ℚ → ℚ)
    (cfg : TargetConfig) : List Vec3 :=
  let base := cfg.basePosition
  let leftWing := (List.range (cfg.count / 2)).map fun (i0 : Nat) =>
    let distance := ((i0 : ℚ) + 1) * cfg.spacing
    (⟨base.x - distance * cosF cfg.angle, base.y,
      base.z - distance * sinF cfg.angle⟩ : Vec3)
  let rightWing := (List.range ((cfg.count - 1) / 2)).map fun (i0 : Nat) =>
    let distance := ((i0 : ℚ) + 1) * cfg.spacing
    (⟨base.x + distance * cosF cfg.angle, base.y,
      base.z - distance * sinF cfg.angle⟩ : Vec3)
  (base :: (leftWing ++ rightWing)).take cfg.count

/-- Squared Euclidean distance between two `Vec3`s. -/
def distSq (a b : Vec3) : ℚ :=
  (a.x - b.x) ^ 2 + (a.y - b.y) ^ 2 + (a.z - b.z) ^ 2

/-- Source `isTooCloseToExisting` (lines 232–236): some accepted position is at
Euclidean distance `< minDistance`.  Stated squared to stay in `ℚ`:
`√s < d ↔ 0 < d ∧ s < d²`. -/
def isTooCloseToExisting (newPos : Vec3) (existing : List Vec3)
    (minDistance : ℚ) : Bool :=
  existing.any fun pos =>
    decide (0 < minDistance) && decide (distSq newPos pos < minDistance ^ 2)

/-- The candidate of one `do`-body iteration of `calculateScatteredPositions`:
`rand i j` are the two `Math.random()` results (point `i`, attempt `j`). -/
def scatterCandidate (rand : Nat → Nat → ℚ × ℚ) (bounds : Bounds)
    (i j : Nat) : Vec3 :=
  ⟨bounds.minX + (rand i j).1 * (bounds.maxX - bounds.minX),
   bounds.y,
   bounds.minZ + (rand i j).2 * (bounds.maxZ - bounds.minZ)⟩

/-- The `do … while (attempts < maxAttempts && isTooCloseToExisting(…))`
retry loop (lines 186–197), with `fuel` the number of attempts still
allowed: the first candidate far enough from all accepted points is taken,
and the candidate of the last allowed attempt is taken unconditionally. -/
def scatterPick (rand : Nat → Nat → ℚ × ℚ) (bounds : Bounds)
    (existing : List Vec3) (minDistance : ℚ) (i : Nat) :
    Nat → Nat → Vec3
  | _, 0 => scatterCandidate rand bounds i 0
  | j, 1 => scatterCandidate rand bounds i j
  | j, fuel + 1 =>
      let p := scatterCandidate rand bounds i j
      if isTooCloseToExisting p existing minDistance then
        scatterPick rand bounds existing minDistance i (j + 1) fuel
      else p

/-- The outer loop of `calculateScatteredPositions` (lines 177–201): one
accepted point per index, `maxAttempts = 100`. -/
def scatterLoop (rand : Nat → Nat → ℚ × ℚ) (cfg : TargetConfig) :
    Nat → List Vec3 → List Vec3
  | 0, acc => acc
  | n + 1, acc =>
      let i := cfg.count - (n + 1)
      scatterLoop rand cfg n
        (acc ++ [scatterPick rand cfg.bounds acc cfg.minDistance i 0 100])

/-- Source `calculateScatteredPositions`: `count` points of rejection sampling. -/
def calculateScatteredPositions (rand : Nat → Nat → ℚ × ℚ)
    (cfg : TargetConfig) : List Vec3 :=
  scatterLoop rand cfg cfg.count []

/-- Source `calculatePyramidPositions` (lines 203–230): row `row` holds
`baseCount - row` targets (the JS loop bound `col < targetsInRow` runs zero
times when the difference is negative, matching `Nat` subtraction), placed
at `basePosition + (startX + col * spacing.x, 0, row * spacing.z)` with
`startX = basePosition.x - (targetsInRow - 1) * spacing.x / 2`. -/
def calculatePyramidPositions (cfg : TargetConfig) : List Vec3 :=
  (List.range cfg.rows).flatMap fun (row : Nat) =>
    let targetsInRow : Int := (cfg.baseCount : Int) - row
    let startX : ℚ := cfg.basePosition.x - ((targetsInRow : ℚ) - 1) * cfg.spacingX / 2
    (List.range (cfg.baseCount - row)).map fun (col : Nat) =>
      ⟨cfg.basePosition.x + (startX + (col : ℚ) * cfg.spacingX),
       cfg.basePosition.y,
       cfg.basePosition.z + (row : ℚ) * cfg.spacingZ⟩

/-- Source `calculateTargetPositions` (lines 64–83): dispatch on `config.layout`;
the moving layout (and the default branch) reuses the linear positions. -/
def calculateTargetPositions (sinF cosF : ℚ → ℚ) (piQ : ℚ)
    (rand : Nat → Nat → ℚ × ℚ) (cfg : TargetConfig) : List Vec3 :=
  match cfg.layout with
  | Layout.linear => calculateLinearPositions cfg
  | Layout.circular => calculateCircularPositions sinF cosF piQ cfg
  | Layout.grid => calculateGridPositions cfg
  | Layout.v_formation => calculateVFormationPositions sinF cosF cfg
  | Layout.scattered => calculateScatteredPositions rand cfg
  | Layout.pyramid => calculatePyramidPositions cfg
  | Layout.moving => calculateLinearPositions cfg

/-- Source `getTargetCount` (lines 279–294): `rows * cols` for the grid,
the accumulated `baseCount - row` sum for the pyramid (over JS numbers,
hence `Int` in the model), `config.count` otherwise. -/
def getTargetCount (cfg : TargetConfig) : Int :=
  match cfg.layout with
  | Layout.grid => (cfg.rows : Int) * cfg.cols
  | Layout.pyramid =>
      (List.range cfg.rows).foldl
        (fun (acc : Int) (row : Nat) => acc + ((cfg.baseCount : Int) - (row : Int))) 0
  | _ => (cfg.count : Int)

/-- Per-target elimination animation record, as initialised in
`setupTargets` (lines 38–49) and mutated by
`startTargetEliminationAnimation` / `updateAnimations`. -/
structure AnimState where
  isAnimating : Bool
  startRotation : Euler
  animationProgress : ℚ
  animationDuration : ℚ
  targetRotation : Euler
deriving DecidableEq, Repr

/-- Per-target movement record of the moving layout, as initialised in
`setupTargets` (lines 52–60). -/
structure MoveState where
  startPosition : Vec3
  time : ℚ
  amplitude : ℚ
  speed : ℚ
  axis : MoveAxis
deriving DecidableEq, Repr

/-- One target: its transform, the `userData` fields written by the
controller (`hp`, `eliminated`), Three.js `visible`, and the animation /
movement records the controller keeps for it in its two `Map`s. -/
structure Target where
  position : Vec3
  rotation : Euler
  scale : ℚ
  hp : Int
  eliminated : Bool
  visible : Bool
  anim : AnimState
  move : Option MoveState
deriving DecidableEq, Repr

/-- Source `ANIMATION_CONFIG.TARGET_ELIMINATION.DURATION` (constants.js): 1.0 s.
(`ROTATION_X = -Math.PI / 2` is irrational and stays a parameter.) -/
def TARGET_ELIMINATION_DURATION : ℚ := 1

/-- One target as built by `createTarget` plus the `targetAnimations` /
`targetMovements` entries of `setupTargets`: full hp, visible, rotation
cloned from the template object (`initRot`), animation idle with
`targetRotation = elimRot` (the `(-π/2, 0, 0)` euler), movement state only
for an enabled moving layout. -/
def mkTarget (cfg : TargetConfig) (initRot elimRot : Euler) (pos : Vec3) :
    Target :=
  { position := pos
    rotation := initRot
    scale := cfg.scale
    hp := cfg.hp
    eliminated := false
    visible := true
    anim :=
      { isAnimating := false
        startRotation := initRot
        animationProgress := 0
        animationDuration := TARGET_ELIMINATION_DURATION
        targetRotation := elimRot }
    move :=
      if cfg.layout = Layout.moving ∧ (cfg.movement.map (·.enabled)).getD false then
        some
          { startPosition := pos
            time := 0
            amplitude := ((cfg.movement.map (·.amplitude)).getD 0)
            speed := ((cfg.movement.map (·.speed)).getD 0)
            axis := ((cfg.movement.map (·.axis)).getD MoveAxis.x) }
      else none }

/-- Source `setupTargets` (lines 30–62): one target per generated position. -/
def setupTargets (cfg : TargetConfig) (initRot elimRot : Euler)
    (positions : List Vec3) : List Target :=
  positions.map (mkTarget cfg initRot elimRot)

/-- Source `startTargetEliminationAnimation` (lines 318–325): arm the animation
unless it is already running, restarting progress from 0 and recording the
current rotation as the interpolation start. -/
def startTargetEliminationAnimation (t : Target) : Target :=
  if ¬t.anim.isAnimating then
    { t with
        anim :=
          { t.anim with
              isAnimating := true
              animationProgress := 0
              startRotation := t.rotation } }
  else t

/-- Source `onHit` (lines 300–316): no-op returning `false` when `hp < 1`;
otherwise decrement `hp`, and on reaching `hp < 1` mark the target
eliminated, arm the elimination animation and return `true`. -/
def onHit (t : Target) : Target × Bool :=
  if t.hp < 1 then (t, false)
  else
    let t1 := { t with hp := t.hp - 1 }
    if t1.hp < 1 then
      (startTargetEliminationAnimation { t1 with eliminated := true }, true)
    else (t1, false)

/-- The elimination-animation half of one `updateAnimations` iteration
(lines 329–361): advance progress by `delta / duration`; at `≥ 1` snap to
the target rotation and hide, otherwise interpolate with the cubic
ease-out `1 - (1 - t)³`. -/
def updateElimOne (delta : ℚ) (t : Target) : Target :=
  if t.anim.isAnimating then
    let p := t.anim.animationProgress + delta / t.anim.animationDuration
    if 1 ≤ p then
      { t with
          anim := { t.anim with isAnimating := false, animationProgress := p }
          rotation := t.anim.targetRotation
          visible := false }
    else
      let easedT := 1 - (1 - p) ^ 3
      { t with
          anim := { t.anim with animationProgress := p }
          rotation :=
            ⟨lerp t.anim.startRotation.x t.anim.targetRotation.x easedT,
             lerp t.anim.startRotation.y t.anim.targetRotation.y easedT,
             lerp t.anim.startRotation.z t.anim.targetRotation.z easedT⟩ }
  else t

/-- The movement half of one `updateAnimations` iteration
(TargetController.js lines 363–379): gated on the target not being
eliminated; `time += delta * speed`, then `position = startPosition +
sin(time) * amplitude` on each configured axis.  `sinF` stands for
`Math.sin`. -/
def updateMoveOne (sinF : ℚ → ℚ) (delta : ℚ) (t : Target) : Target :=
  match t.move with
  | none => t
  | some m =>
      if ¬t.eliminated then
        let m' := { m with time := m.time + delta * m.speed }
        let x' :=
          if m.axis = MoveAxis.x ∨ m.axis = MoveAxis.both then
            m.startPosition.x + sinF m'.time * m.amplitude
          else t.position.x
        let z' :=
          if m.axis = MoveAxis.z ∨ m.axis = MoveAxis.both then
            m.startPosition.z + sinF m'.time * m.amplitude
          else t.position.z
        { t with move := some m', position := { t.position with x := x', z := z' } }
      else t

/-- One target's step of `updateAnimations` (lines 327–381): the
elimination-rotation update followed by the movement update. -/
def updateAnimationsOne (sinF : ℚ → ℚ) (delta : ℚ) (t : Target) : Target :=
  updateMoveOne sinF delta (updateElimOne delta t)

/-- Source `updateAnimations(delta)` over the whole target list. -/
def updateAnimations (sinF : ℚ → ℚ) (delta : ℚ) (ts : List Target) :
    List Target :=
  ts.map (updateAnimationsOne sinF delta)

/-- The movement half of the SECOND iteration of `updateAnimations`
(the documented `TargetController` variant bundled in
EventBus.js, lines 519–539): gated on `target.visible` instead of
`eliminated`, `time += delta` with the speed factor applied at read time,
`sin` on the x axis but `cos` on the z axis, and both coordinates written
whenever a movement record exists. -/
def updateMoveOneSecondIteration (sinF cosF : ℚ → ℚ) (delta : ℚ)
    (t : Target) : Target :=
  match t.move with
  | none => t
  | some m =>
      if t.visible then
        let m' := { m with time := m.time + delta }
        let time := m'.time * m.speed
        let offsetX :=
          if m.axis = MoveAxis.x ∨ m.axis = MoveAxis.both then
            sinF time * m.amplitude
          else 0
        let offsetZ :=
          if m.axis = MoveAxis.z ∨ m.axis = MoveAxis.both then
            cosF time * m.amplitude
          else 0
        { t with
            move := some m'
            position :=
              { t.position with
                  x := m.startPosition.x + offsetX
                  z := m.startPosition.z + offsetZ } }
      else t

/-- Source `resetTargets` (lines 253–273), per target: visible again, hp back to
`config.hp`, not eliminated, animation disarmed with the rotation restored
from `startRotation`, movement time rewound with the position restored from
`startPosition`. -/
def resetTargetOne (cfg : TargetConfig) (t : Target) : Target :=
  let t1 := { t with visible := true, hp := cfg.hp, eliminated := false }
  let t2 :=
    { t1 with
        anim := { t1.anim with isAnimating := false, animationProgress := 0 }
        rotation := t1.anim.startRotation }
  match t2.move with
  | some m => { t2 with move := some { m with time := 0 }, position := m.startPosition }
  | none => t2

/-- Source `resetTargets` over the whole target list. -/
def resetTargets (cfg : TargetConfig) (ts : List Target) : List Target :=
  ts.map (resetTargetOne cfg)

/-- State after `n` successive `onHit` calls on one target. -/
def hitsState (n : Nat) (t : Target) : Target :=
  match n with
  | 0 => t
  | n + 1 => hitsState n (onHit t).1

end TargetController

/-! ### Constants (`helpers/constants.js`, documented revision)

`GAME_CONFIG.PITCH_CLAMP = Math.PI * 0.1` is irrational and is threaded
through the model as a parameter `pitchClamp`. -/

/-- Source `GAME_CONFIG.MAX_MAG_AMMO`. -/
def MAX_MAG_AMMO : Int := 7

/-- Source `GAME_CONFIG.MOVE_SPEED`. -/
def MOVE_SPEED : ℚ := 50

/-- Source `GAME_CONFIG.ROTATION_SPEED`. -/
def ROTATION_SPEED : ℚ := 10

/-- Source `GAME_CONFIG.KILL_COUNT_TO_WIN`. -/
def KILL_COUNT_TO_WIN : Int := 20

/-- Source `GAME_CONFIG.MOVEMENT_BOUNDS`. -/
def BOUNDS_MIN_X : ℚ := -50

/-- Source `GAME_CONFIG.MOVEMENT_BOUNDS`. -/
def BOUNDS_MAX_X : ℚ := 50

/-- Source `GAME_CONFIG.MOVEMENT_BOUNDS`. -/
def BOUNDS_MIN_Z : ℚ := -50

/-- Source `GAME_CONFIG.MOVEMENT_BOUNDS`. -/
def BOUNDS_MAX_Z : ℚ := 50

/-- Source `getEffectiveKillCountToWin` (constants.js lines 272–290): the
effective target count of the current configuration (grid: `rows * cols`;
pyramid: accumulated `baseCount - row`; otherwise `count`), capped by
`Math.min(·, GAME_CONFIG.KILL_COUNT_TO_WIN)`.  The source reads the global
`CURRENT_TARGET_CONFIG`; the model passes the configuration explicitly. -/
def getEffectiveKillCountToWin (cfg : TargetController.TargetConfig) : Int :=
  let currentTargetCount : Int :=
    match cfg.layout with
    | TargetController.Layout.grid => (cfg.rows : Int) * cfg.cols
    | TargetController.Layout.pyramid =>
        (List.range cfg.rows).foldl
          (fun (acc : Int) (row : Nat) => acc + ((cfg.baseCount : Int) - (row : Int))) 0
    | _ => (cfg.count : Int)
  min currentTargetCount KILL_COUNT_TO_WIN

/-- Notifications emitted through the event bus by the modelled code
(`helpers/EventNames.js`). -/
inductive GameEvent
  | killCountUpdate (n : Nat)
  | gameOver
  | shooting
deriving DecidableEq, Repr

namespace PlayerController

/-- The weapon animation actions of `ANIMATION_CONFIG.WEAPON_ACTIONS`. -/
inductive WeaponAction
  | deploy
  | idle
  | fire
  | reload
deriving DecidableEq, Repr

/-- The six transform clones recorded in `this.initialData` by
`setupInitialState` (PlayerController.js lines 219–226). -/
structure Transforms where
  obj3DPosition : Vec3
  obj3DRotation : Euler
  cameraPosition : Vec3
  cameraRotation : Euler
  weaponObjPosition : Vec3
  weaponObjRotation : Euler
deriving DecidableEq, Repr

/-- The player/weapon state: `canFire`, `magAmmo`,
`currentWeaponActionName`, the mutable transforms of the player container /
camera / weapon, and the immutable `initialData` snapshot. -/
structure PlayerState where
  canFire : Bool
  magAmmo : Int
  currentWeaponActionName : WeaponAction
  obj3DPosition : Vec3
  obj3DRotation : Euler
  cameraPosition : Vec3
  cameraRotation : Euler
  weaponObjPosition : Vec3
  weaponObjRotation : Euler
  initialData : Transforms
deriving DecidableEq, Repr

/-- Source `setupInitialState` (lines 210–240): `canFire = false`, a full
magazine, the snapshot taken from the construction-time transforms `tp`,
and the deploy animation started.  (The construction-time transform values
involve `Math.PI`-based weapon rotations and are kept as the parameter
`tp`.) -/
def setupInitialState (tp : Transforms) : PlayerState :=
  { canFire := false
    magAmmo := MAX_MAG_AMMO
    currentWeaponActionName := WeaponAction.deploy
    obj3DPosition := tp.obj3DPosition
    obj3DRotation := tp.obj3DRotation
    cameraPosition := tp.cameraPosition
    cameraRotation := tp.cameraRotation
    weaponObjPosition := tp.weaponObjPosition
    weaponObjRotation := tp.weaponObjRotation
    initialData := tp }

/-- Source `isWeaponReady` (lines 281–283): `this.canFire && this.magAmmo > 0`. -/
def isWeaponReady (p : PlayerState) : Bool :=
  p.canFire && decide (0 < p.magAmmo)

/-- Source `playWeaponAnim` (lines 291–319): a no-op when the requested action is
already current, otherwise it becomes the current action.  (Animation-time
bookkeeping of the mixer is not part of the state; completions arrive as
events.) -/
def playWeaponAnim (actionName : WeaponAction) (p : PlayerState) : PlayerState :=
  if p.currentWeaponActionName = actionName then p
  else { p with currentWeaponActionName := actionName }

/-- Source `fireWeapon` (lines 325–360): decrement `magAmmo`, clear `canFire`,
emit the shooting notification, play the fire action. -/
def fireWeapon (p : PlayerState) : PlayerState × List GameEvent :=
  (playWeaponAnim WeaponAction.fire { p with magAmmo := p.magAmmo - 1, canFire := false },
   [GameEvent.shooting])

/-- The completion callback armed by `fireWeapon` (lines 334–357), guarded
by the fire action being the one that is playing: with ammo left return to
idle and re-enable firing, otherwise play the reload action. -/
def onFireFinished (p : PlayerState) : PlayerState :=
  if p.currentWeaponActionName = WeaponAction.fire then
    if 0 < p.magAmmo then playWeaponAnim WeaponAction.idle { p with canFire := true }
    else playWeaponAnim WeaponAction.reload p
  else p

/-- The completion callback armed for the reload action (lines 345–353):
refill the magazine, re-enable firing, return to idle. -/
def onReloadFinished (p : PlayerState) : PlayerState :=
  if p.currentWeaponActionName = WeaponAction.reload then
    playWeaponAnim WeaponAction.idle
      { p with magAmmo := MAX_MAG_AMMO, canFire := true }
  else p

/-- The completion callback armed for the deploy action
(`setupInitialState` / `resetToInitialState`): enable firing, loop idle. -/
def onDeployFinished (p : PlayerState) : PlayerState :=
  if p.currentWeaponActionName = WeaponAction.deploy then
    playWeaponAnim WeaponAction.idle { p with canFire := true }
  else p

/-- Source `resetToInitialState` (lines 254–275): copy every transform back from
`initialData`, refill the magazine, replay the deploy animation. -/
def resetToInitialState (p : PlayerState) : PlayerState :=
  playWeaponAnim WeaponAction.deploy
    { p with
        obj3DPosition := p.initialData.obj3DPosition
        obj3DRotation := p.initialData.obj3DRotation
        cameraPosition := p.initialData.cameraPosition
        cameraRotation := p.initialData.cameraRotation
        weaponObjPosition := p.initialData.weaponObjPosition
        weaponObjRotation := p.initialData.weaponObjRotation
        magAmmo := MAX_MAG_AMMO }

/-- Source `PlayerController.update` (lines 376–405): write the yaw/pitch into the
container and camera rotations; when the movement input is non-zero,
displace by the yaw-rotated unit direction (`worldDir`, abstracting the
irrational `normalize` / `applyAxisAngle`) scaled by `MOVE_SPEED * delta`,
clamping x and z to `MOVEMENT_BOUNDS`. -/
def update (moveActive : Bool) (worldDir : Vec3) (yaw pitch delta : ℚ)
    (p : PlayerState) : PlayerState :=
  let p := { p with
               obj3DRotation := { p.obj3DRotation with y := yaw }
               cameraRotation := { p.cameraRotation with x := pitch } }
  if moveActive then
    let newX := p.obj3DPosition.x + worldDir.x * (MOVE_SPEED * delta)
    let newY := p.obj3DPosition.y + worldDir.y * (MOVE_SPEED * delta)
    let newZ := p.obj3DPosition.z + worldDir.z * (MOVE_SPEED * delta)
    { p with
        obj3DPosition :=
          ⟨clampQ BOUNDS_MIN_X BOUNDS_MAX_X newX, newY,
           clampQ BOUNDS_MIN_Z BOUNDS_MAX_Z newZ⟩ }
  else p

end PlayerController

namespace Game

open TargetController PlayerController

/-- The orchestrator state: `Game`'s `killCount`, `isGameOver` and
`rotationState`, together with the player state and the target list it
coordinates. -/
structure GameState where
  killCount : Nat
  isGameOver : Bool
  yaw : ℚ
  pitch : ℚ
  player : PlayerState
  targets : List Target
deriving DecidableEq, Repr

/-- Source `Game.resetGame` (Game.js lines 138–144): clear the game-over flag,
zero the rotation state and the kill count, emit the kill-count update. -/
def resetGame (s : GameState) : GameState × List GameEvent :=
  ({ s with isGameOver := false, yaw := 0, pitch := 0, killCount := 0 },
   [GameEvent.killCountUpdate 0])

/-- Source `Game.updateRotation` (lines 151–160): integrate yaw and pitch from the
joystick input scaled by `delta * ROTATION_SPEED`, then clamp the pitch to
`±PITCH_CLAMP` (`pitchClamp` parameter, `Math.PI * 0.1` in the source). -/
def updateRotation (pitchClamp : ℚ) (inputX inputY delta : ℚ)
    (s : GameState) : GameState :=
  let yaw' := s.yaw - inputX * delta * ROTATION_SPEED
  let pitch' := s.pitch - inputY * delta * ROTATION_SPEED
  { s with yaw := yaw', pitch := clampQ (-pitchClamp) pitchClamp pitch' }

/-- Source `Game.checkTargetHits` (lines 168–195).  `ray` lists the indices of the
targets hit by the centre ray, nearest first (`raycaster.intersectObjects`
returns intersections sorted by distance; `firstHit.object.parent` is the
hit target's top-level container).  When the weapon is not ready, or
nothing is hit, or the nearest hit target is invisible, nothing changes
(the JS returns `undefined` / `false`).  On a visible hit: apply
`onHit`; on elimination bump the kill count, emit the update and — at the
effective win threshold — set `isGameOver` and emit the game-over
notification (whose `PlayerController` listener clears `canFire`,
PlayerController.js lines 196–199); finally invoke `fireWeapon` and report
the hit. -/
def checkTargetHits (cfg : TargetConfig) (ray : List Nat) (s : GameState) :
    GameState × Bool × List GameEvent :=
  if ¬isWeaponReady s.player then (s, false, [])
  else
    match ray with
    | [] => (s, false, [])
    | idx :: _ =>
        match s.targets[idx]? with
        | none => (s, false, [])
        | some t =>
            if t.visible then
              let hit := TargetController.onHit t
              let s1 := { s with targets := s.targets.set idx hit.1 }
              let s2 :=
                if hit.2 then
                  let kc : Nat := s1.killCount + 1
                  let s1' := { s1 with killCount := kc }
                  if getEffectiveKillCountToWin cfg ≤ (kc : Int) then
                    ({ s1' with
                         isGameOver := true
                         player := { s1'.player with canFire := false } },
                     [GameEvent.killCountUpdate kc, GameEvent.gameOver])
                  else (s1', [GameEvent.killCountUpdate kc])
                else (s1, [])
              let fired := fireWeapon s2.1.player
              ({ s2.1 with player := fired.1 }, true, s2.2 ++ fired.2)
            else (s, false, [])

end Game

namespace GameManager

open TargetController PlayerController Game

/-- The per-frame inputs consumed by `GameManager.update`: the frame delta,
the rotation joystick vector, whether the movement joystick is non-zero,
the yaw-rotated unit movement direction (abstracting the irrational
`normalize` / `applyAxisAngle` of `PlayerController.update`), and the
sorted indices of the targets intersected by the centre ray. -/
structure FrameInput where
  delta : ℚ
  rotX : ℚ
  rotY : ℚ
  moveActive : Bool
  worldDir : Vec3
  ray : List Nat

/-- The observable events driving the session: a render-loop frame, the
three weapon animation completions (delivered by the mixer only while the
corresponding non-looping action is the current one), and the play-again
request from the game-over overlay. -/
inductive Ev
  | frame (inp : FrameInput)
  | deployFinished
  | fireFinished
  | reloadFinished
  | playAgain

/-- The static parameters of a session: the target configuration, the
irrational constants and transcendental functions kept abstract
(`Math.sin`, `Math.cos`, `Math.PI`, `Math.random`, `PITCH_CLAMP`), the
target template rotation, the elimination target rotation
(`(-π/2, 0, 0)`), and the construction-time player transforms. -/
structure Env where
  cfg : TargetConfig
  sinF : ℚ → ℚ
  cosF : ℚ → ℚ
  piQ : ℚ
  rand : Nat → Nat → ℚ × ℚ
  pitchClamp : ℚ
  initRot : Euler
  elimRot : Euler
  tp : Transforms

/-- The positions generated at session setup. -/
def genPositions (env : Env) : List Vec3 :=
  calculateTargetPositions env.sinF env.cosF env.piQ env.rand env.cfg

/-- The session state right after `initializeGame`: fresh `Game` state,
player state from `setupInitialState`, targets from `setupTargets`. -/
def init (env : Env) : GameState :=
  { killCount := 0
    isGameOver := false
    yaw := 0
    pitch := 0
    player := setupInitialState env.tp
    targets := setupTargets env.cfg env.initRot env.elimRot (genPositions env) }

/-- One pass of `GameManager.update` (GameManager.js lines 82–119): advance
the weapon mixer and the target animations, render, and — unless the game
is over — integrate rotation, move the player, and run the hit check. -/
def frameStep (env : Env) (inp : FrameInput) (s : GameState) : GameState :=
  let s := { s with targets := updateAnimations env.sinF inp.delta s.targets }
  if s.isGameOver then s
  else
    let s := updateRotation env.pitchClamp inp.rotX inp.rotY inp.delta s
    let s := { s with
                 player :=
                   PlayerController.update inp.moveActive inp.worldDir s.yaw
                     s.pitch inp.delta s.player }
    (checkTargetHits env.cfg inp.ray s).1

/-- The `PLAY_AGAIN` notification, delivered to its subscribers in
registration order: `Game`'s handler (Game.js lines 127–131: `resetGame`,
then the player reset, then the target reset), then `PlayerController`'s
own handler (`resetToInitialState` again), then `TargetController`'s own
handler (`resetTargets` again). -/
def playAgainStep (env : Env) (s : GameState) : GameState :=
  let s1 := (resetGame s).1
  let s2 := { s1 with player := resetToInitialState s1.player }
  let s3 := { s2 with targets := resetTargets env.cfg s2.targets }
  let s4 := { s3 with player := resetToInitialState s3.player }
  { s4 with targets := resetTargets env.cfg s4.targets }

/-- One observable step of the session. -/
def step (env : Env) (s : GameState) (e : Ev) : GameState :=
  match e with
  | Ev.frame inp => frameStep env inp s
  | Ev.deployFinished => { s with player := onDeployFinished s.player }
  | Ev.fireFinished => { s with player := onFireFinished s.player }
  | Ev.reloadFinished => { s with player := onReloadFinished s.player }
  | Ev.playAgain => playAgainStep env s

/-- The session state reached from startup by a sequence of events. -/
def run (env : Env) (evs : List Ev) : GameState :=
  evs.foldl (step env) (init env)

end GameManager

/-! ### Target configuration presets (`TARGET_CONFIGS`, constants.js) -/

namespace TargetController

/-- Source `TARGET_CONFIGS.LINEAR`. -/
def TARGET_CONFIGS_LINEAR : TargetConfig :=
  { layout := Layout.linear
    count := 10
    spacing := 10
    basePosition := ⟨-45, 0, -50⟩
    scale := 8 / 100
    hp := 4 }

/-- Source `TARGET_CONFIGS.CIRCULAR`. -/
def TARGET_CONFIGS_CIRCULAR : TargetConfig :=
  { layout := Layout.circular
    count := 8
    radius := 30
    centerPosition := ⟨0, 0, -50⟩
    scale := 8 / 100
    hp := 3
    startAngle := 0 }

/-- Source `TARGET_CONFIGS.GRID`. -/
def TARGET_CONFIGS_GRID : TargetConfig :=
  { layout := Layout.grid
    rows := 5
    cols := 7
    spacingX := 12
    spacingZ := 12
    basePosition := ⟨-30, 0, -50⟩
    scale := 8 / 100
    hp := 5 }

/-- Source `TARGET_CONFIGS.V_FORMATION`; its `angle: Math.PI / 3` is irrational
and stays a parameter. -/
def TARGET_CONFIGS_V_FORMATION (angle : ℚ) : TargetConfig :=
  { layout := Layout.v_formation
    count := 7
    angle := angle
    basePosition := ⟨0, 0, -50⟩
    spacing := 8
    scale := 8 / 100
    hp := 4 }

/-- Source `TARGET_CONFIGS.SCATTERED`. -/
def TARGET_CONFIGS_SCATTERED : TargetConfig :=
  { layout := Layout.scattered
    count := 12
    bounds := ⟨-40, 40, -60, -30, 0⟩
    scale := 8 / 100
    hp := 3
    minDistance := 8 }

/-- Source `TARGET_CONFIGS.PYRAMID`. -/
def TARGET_CONFIGS_PYRAMID : TargetConfig :=
  { layout := Layout.pyramid
    baseCount := 5
    rows := 5
    spacingX := 10
    spacingZ := 10
    basePosition := ⟨0, 0, -50⟩
    scale := 8 / 100
    hp := 4 }

/-- Source `TARGET_CONFIGS.MOVING`. -/
def TARGET_CONFIGS_MOVING : TargetConfig :=
  { layout := Layout.moving
    count := 6
    basePosition := ⟨-30, 0, -50⟩
    spacing := 12
    scale := 8 / 100
    hp := 3
    movement := some ⟨true, 5, 2, MoveAxis.both⟩ }

/-- Source `CURRENT_TARGET_CONFIG = TARGET_CONFIGS.LINEAR` (constants.js). -/
def CURRENT_TARGET_CONFIG : TargetConfig := TARGET_CONFIGS_LINEAR

end TargetController

/-- Zeroed player transforms, usable as a concrete construction-time
snapshot in closed instantiations. -/
def zeroTransforms : PlayerController.Transforms :=
  { obj3DPosition := ⟨0, 0, 40⟩
    obj3DRotation := ⟨0, 0, 0⟩
    cameraPosition := ⟨0, 20, 0⟩
    cameraRotation := ⟨0, 0, 0⟩
    weaponObjPosition := ⟨0, 0, 0⟩
    weaponObjRotation := ⟨0, 0, 0⟩ }

/-- A closed session environment for concrete evaluations: the shipped
`CURRENT_TARGET_CONFIG`, with the abstract transcendental parameters
instantiated by total dummy functions (the claims proved below hold for
every instantiation). -/
def witnessEnv : GameManager.Env :=
  { cfg := TargetController.CURRENT_TARGET_CONFIG
    sinF := fun _ => 0
    cosF := fun _ => 0
    piQ := 0
    rand := fun _ _ => (0, 0)
    pitchClamp := 1
    initRot := ⟨0, 0, 0⟩
    elimRot := ⟨0, 0, 0⟩
    tp := zeroTransforms }

/-- The per-target reachability invariant used in the play-again proofs:
the recorded animation `startRotation` stays the creation-time rotation, a
non-eliminated target still carries its creation rotation with the
elimination animation unarmed, an eliminated target has no hp left, a
target without a movement record never moves off its generated position,
and a movement record keeps the generated position as `startPosition`. -/
def TargetController.targetInv (initRot : Euler) (pos : Vec3)
    (t : TargetController.Target) : Prop :=
  t.anim.startRotation = initRot
  ∧ (t.eliminated = false → t.rotation = initRot ∧ t.anim.isAnimating = false)
  ∧ (t.eliminated = true → t.hp < 1)
  ∧ (t.move = none → t.position = pos)
  ∧ (∀ m, t.move = some m → m.startPosition = pos)

/-- A one-target linear session environment for closed evaluations of the
play-again round trip. -/
def resetWitnessEnv : GameManager.Env :=
  { cfg :=
      { layout := TargetController.Layout.linear
        count := 1
        spacing := 0
        basePosition := ⟨0, 0, 0⟩
        scale := 0
        hp := 1 }
    sinF := fun _ => 0
    cosF := fun _ => 0
    piQ := 0
    rand := fun _ _ => (0, 0)
    pitchClamp := 1
    initRot := ⟨0, 0, 0⟩
    elimRot := ⟨0, 0, 0⟩
    tp := zeroTransforms }

/-! ## Theorems -/

namespace TargetController

theorem startElim_fields (u : Target) :
    (startTargetEliminationAnimation u).hp = u.hp ∧
    (startTargetEliminationAnimation u).position = u.position ∧
    (startTargetEliminationAnimation u).eliminated = u.eliminated ∧
    (startTargetEliminationAnimation u).visible = u.visible := by
  unfold startTargetEliminationAnimation
  split <;> simp

theorem onHit_of_lt (t : Target) (h : t.hp < 1) : onHit t = (t, false) := by
  simp [onHit, h]

theorem onHit_nonelim (t : Target) (h : 2 ≤ t.hp) :
    onHit t = ({ t with hp := t.hp - 1 }, false) := by
  have h1 : ¬t.hp < 1 := by omega
  have h2 : ¬t.hp - 1 < 1 := by omega
  simp [onHit, h1, h2]

theorem onHit_elim (t : Target) (h : t.hp = 1)
    (hanim : t.anim.isAnimating = false) :
    onHit t =
      ({ t with
           hp := 0
           eliminated := true
           anim :=
             { t.anim with
                 isAnimating := true
                 animationProgress := 0
                 startRotation := t.rotation } }, true) := by
  obtain ⟨pos, rot, sc, hp, el, vis, anim, mv⟩ := t
  simp only at h hanim
  subst h
  simp [onHit, startTargetEliminationAnimation, hanim]

theorem onHit_hp_dec (t : Target) (h : 1 ≤ t.hp) :
    (onHit t).1.hp = t.hp - 1 := by
  have h1 : ¬t.hp < 1 := by omega
  unfold onHit
  simp only [h1, if_false]
  split
  · exact (startElim_fields _).1
  · rfl

theorem onHit_hp_nonneg (t : Target) (h : 0 ≤ t.hp) :
    0 ≤ (onHit t).1.hp := by
  by_cases h1 : t.hp < 1
  · rw [onHit_of_lt t h1]
    exact h
  · rw [onHit_hp_dec t (by omega)]
    omega

theorem onHit_true_iff (t : Target) (h : 1 ≤ t.hp) :
    ((onHit t).2 = true) ↔ t.hp = 1 := by
  have h1 : ¬t.hp < 1 := by omega
  unfold onHit
  simp only [h1, if_false]
  split
  · simpa using by omega
  · simpa using by omega

theorem hitsState_nonneg (n : Nat) (t : Target) (h : 0 ≤ t.hp) :
    0 ≤ (hitsState n t).hp := by
  induction n generalizing t with
  | zero => exact h
  | succ n ih => exact ih _ (onHit_hp_nonneg t h)

theorem hitsState_add (a b : Nat) (t : Target) :
    hitsState (a + b) t = hitsState b (hitsState a t) := by
  induction a generalizing t with
  | zero => rw [Nat.zero_add]; rfl
  | succ a ih =>
      have : a + 1 + b = (a + b) + 1 := by omega
      rw [this]
      show hitsState (a + b) (onHit t).1 = _
      rw [ih]
      rfl

theorem hitsState_of_nonpos (t : Target) (h : t.hp ≤ 0) (j : Nat) :
    hitsState j t = t := by
  induction j with
  | zero => rfl
  | succ j ih =>
      show hitsState j (onHit t).1 = t
      rw [onHit_of_lt t (by omega)]
      exact ih

theorem hitsState_mid (i : Nat) (t : Target) (helim : t.eliminated = false)
    (hanim : t.anim.isAnimating = false) (hi : (i : Int) < t.hp) :
    hitsState i t = { t with hp := t.hp - i } := by
  induction i generalizing t with
  | zero => simp; rfl
  | succ i ih =>
      have h2 : 2 ≤ t.hp := by omega
      show hitsState i (onHit t).1 = _
      rw [onHit_nonelim t h2]
      rw [ih { t with hp := t.hp - 1 } helim hanim (by push_cast; omega)]
      simp only
      congr 1
      push_cast
      omega

theorem hitsState_boom (i : Nat) (t : Target) (helim : t.eliminated = false)
    (hanim : t.anim.isAnimating = false) (h1 : 1 ≤ t.hp)
    (hi : t.hp ≤ (i : Int)) :
    hitsState i t =
      { t with
          hp := 0
          eliminated := true
          anim :=
            { t.anim with
                isAnimating := true
                animationProgress := 0
                startRotation := t.rotation } } := by
  obtain ⟨k, hk⟩ : ∃ k : Nat, t.hp = (k : Int) + 1 := by
    refine ⟨(t.hp - 1).toNat, ?_⟩
    omega
  obtain ⟨j, hj⟩ : ∃ j : Nat, i = k + 1 + j := by
    refine ⟨i - (k + 1), ?_⟩
    omega
  subst hj
  rw [hitsState_add (k + 1) j t, hitsState_add k 1 t]
  rw [hitsState_mid k t helim hanim (by omega)]
  have hmid : ({ t with hp := t.hp - k } : Target).hp = 1 := by simp; omega
  rw [show hitsState 1 ({ t with hp := t.hp - k } : Target) =
        (onHit { t with hp := t.hp - k }).1 from rfl]
  rw [onHit_elim _ hmid hanim]
  exact hitsState_of_nonpos _ (by simp) j

end TargetController

namespace TargetController

/-- C2: `onHit` decrements hp by exactly 1 when `hp ≥ 1` and is a
pure no-op returning `false` when `hp < 1`; hp never becomes negative under
any sequence of `onHit` calls; and a target starting at `hp = h ≥ 1`
(fresh: not eliminated, animation unarmed) returns `true` exactly once over
any call sequence — on call number `h`, the one that moves hp to 0 — which
also sets `eliminated` and arms the elimination animation. -/
theorem claim_C2_onHit_contract (t : Target) (h : Int) (hhp : t.hp = h)
    (h1 : 1 ≤ h) (helim : t.eliminated = false)
    (hanim : t.anim.isAnimating = false) :
    (∀ u : Target, 1 ≤ u.hp → (onHit u).1.hp = u.hp - 1)
    ∧ (∀ u : Target, u.hp < 1 → onHit u = (u, false))
    ∧ (∀ (u : Target) (n : Nat), 0 ≤ u.hp → 0 ≤ (hitsState n u).hp)
    ∧ (∀ i : Nat, (((onHit (hitsState i t)).2 = true) ↔ (i : Int) + 1 = h))
    ∧ (∀ i : Nat, h ≤ (i : Int) →
        (hitsState i t).eliminated = true
        ∧ (hitsState i t).anim.isAnimating = true) := by
  subst hhp
  refine ⟨onHit_hp_dec, onHit_of_lt, fun u n hu => hitsState_nonneg n u hu,
    fun i => ?_, fun i hi => ?_⟩
  · by_cases hlt : (i : Int) < t.hp
    · rw [hitsState_mid i t helim hanim hlt]
      rw [onHit_true_iff _ (by simp; omega)]
      simp
      omega
    · rw [hitsState_boom i t helim hanim h1 (by omega)]
      rw [onHit_of_lt _ (by simp)]
      simp
      omega
  · rw [hitsState_boom i t helim hanim h1 hi]
    exact ⟨rfl, rfl⟩

/-- Closed instantiation of `claim_C2_onHit_contract` on the shipped linear
preset's target (`hp = 4`): the fourth call is the eliminating one. -/
theorem claim_C2_onHit_contract_witness :
    (mkTarget TARGET_CONFIGS_LINEAR ⟨0, 0, 0⟩ ⟨0, 0, 0⟩ ⟨0, 0, 0⟩).hp = 4
    ∧ (1 : Int) ≤ 4
    ∧ (mkTarget TARGET_CONFIGS_LINEAR ⟨0, 0, 0⟩ ⟨0, 0, 0⟩ ⟨0, 0, 0⟩).eliminated = false
    ∧ (mkTarget TARGET_CONFIGS_LINEAR ⟨0, 0, 0⟩ ⟨0, 0, 0⟩ ⟨0, 0, 0⟩).anim.isAnimating = false
    ∧ (((onHit (hitsState 3 (mkTarget TARGET_CONFIGS_LINEAR ⟨0, 0, 0⟩ ⟨0, 0, 0⟩ ⟨0, 0, 0⟩))).2 = true)
        ↔ ((3 : Nat) : Int) + 1 = 4) :=
  ⟨rfl, by decide, rfl, rfl,
    (claim_C2_onHit_contract
      (mkTarget TARGET_CONFIGS_LINEAR ⟨0, 0, 0⟩ ⟨0, 0, 0⟩ ⟨0, 0, 0⟩) 4 rfl
      (by decide) rfl rfl).2.2.2.1 3⟩

end TargetController

namespace Game

theorem clampQ_le (c v : ℚ) (hc : 0 ≤ c) : -c ≤ clampQ (-c) c v ∧ clampQ (-c) c v ≤ c := by
  unfold clampQ
  constructor
  · exact le_max_left _ _
  · exact max_le (by linarith) (min_le_left _ _)

theorem updateRotation_foldl_pitch_bound (c : ℚ) (hc : 0 ≤ c)
    (l : List (ℚ × ℚ × ℚ)) (s : GameState) (h0 : |s.pitch| ≤ c) :
    |(l.foldl (fun u i => updateRotation c i.1 i.2.1 i.2.2 u) s).pitch| ≤ c := by
  induction l generalizing s with
  | nil => exact h0
  | cons a l ih =>
      refine ih _ ?_
      rw [abs_le]
      exact ⟨(clampQ_le c _ hc).1, (clampQ_le c _ hc).2⟩

theorem updateRotation_foldl_yaw (c : ℚ) (l : List (ℚ × ℚ × ℚ))
    (s : GameState) :
    (l.foldl (fun u i => updateRotation c i.1 i.2.1 i.2.2 u) s).yaw
      = s.yaw - (l.map (fun i => i.1 * i.2.2 * ROTATION_SPEED)).sum := by
  induction l generalizing s with
  | nil => simp
  | cons a l ih =>
      simp only [List.foldl_cons, List.map_cons, List.sum_cons]
      rw [ih]
      show s.yaw - a.1 * a.2.2 * ROTATION_SPEED - _ = _
      ring

theorem min_clamp_chain (c q b : ℚ) (hb : 0 ≤ b) :
    min c (min c q + b) = min c (q + b) := by
  rcases le_total q c with h | h
  · rw [min_eq_right h]
  · rw [min_eq_left h]
    rw [min_eq_left (by linarith), min_eq_left (by linarith)]

theorem updateRotation_foldl_maxPitch (c : ℚ) (hc : 0 ≤ c)
    (l : List (ℚ × ℚ × ℚ)) (s : GameState)
    (hlo : -c ≤ s.pitch) (hhi : s.pitch ≤ c)
    (hy : ∀ i ∈ l, i.2.1 = -1) (hd : ∀ i ∈ l, 0 ≤ i.2.2) :
    (l.foldl (fun u i => updateRotation c i.1 i.2.1 i.2.2 u) s).pitch
      = min c (s.pitch + (l.map (fun i => i.2.2)).sum * ROTATION_SPEED) := by
  induction l generalizing s with
  | nil => simp [min_eq_right hhi]
  | cons a l ih =>
      have hya : a.2.1 = -1 := hy a (by simp)
      have hda : 0 ≤ a.2.2 := hd a (by simp)
      have hsum : 0 ≤ (l.map (fun i => i.2.2)).sum :=
        List.sum_nonneg (by
          intro q hq
          obtain ⟨i, hi, rfl⟩ := List.mem_map.mp hq
          exact hd i (by simp [hi]))
      have harg : s.pitch - a.2.1 * a.2.2 * ROTATION_SPEED
          = s.pitch + a.2.2 * ROTATION_SPEED := by
        rw [hya]; ring
      have hR : (0 : ℚ) ≤ a.2.2 * ROTATION_SPEED := by
        have : (0 : ℚ) ≤ ROTATION_SPEED := by norm_num [ROTATION_SPEED]
        positivity
      have hstep : (updateRotation c a.1 a.2.1 a.2.2 s).pitch
          = min c (s.pitch + a.2.2 * ROTATION_SPEED) := by
        show clampQ (-c) c (s.pitch - a.2.1 * a.2.2 * ROTATION_SPEED) = _
        rw [harg]
        unfold clampQ
        rw [max_eq_right]
        exact le_min (by linarith) (by linarith)
      simp only [List.foldl_cons, List.map_cons, List.sum_cons]
      rw [ih _ (by rw [hstep]; exact le_min (by linarith) (by linarith))
            (by rw [hstep]; exact min_le_left _ _)
            (fun i hi => hy i (by simp [hi])) (fun i hi => hd i (by simp [hi]))]
      show min c ((updateRotation c a.1 a.2.1 a.2.2 s).pitch + _) = _
      rw [hstep, min_clamp_chain c _ _ (mul_nonneg hsum (by norm_num [ROTATION_SPEED]))]
      congr 1
      ring

/-- C7: along any sequence of `updateRotation` calls with joystick inputs in
`[-1, 1]` and non-negative frame deltas, `|pitch| ≤ PITCH_CLAMP` always
holds afterwards; sustaining the maximal pitch input (`y = -1`) for total
scaled time at least `PITCH_CLAMP - pitch₀` leaves the pitch exactly at
the clamp boundary; and the yaw integrates unconstrained. -/
theorem claim_C7_pitch_clamped (c : ℚ) (hc : 0 ≤ c) (s : GameState)
    (h0 : |s.pitch| ≤ c) (l : List (ℚ × ℚ × ℚ))
    (hin : ∀ i ∈ l, |i.1| ≤ 1 ∧ |i.2.1| ≤ 1 ∧ 0 ≤ i.2.2) :
    |(l.foldl (fun u i => updateRotation c i.1 i.2.1 i.2.2 u) s).pitch| ≤ c
    ∧ ((∀ i ∈ l, i.2.1 = -1) →
        (l.foldl (fun u i => updateRotation c i.1 i.2.1 i.2.2 u) s).pitch
          = min c (s.pitch + (l.map (fun i => i.2.2)).sum * ROTATION_SPEED))
    ∧ ((∀ i ∈ l, i.2.1 = -1) →
        c ≤ s.pitch + (l.map (fun i => i.2.2)).sum * ROTATION_SPEED →
        (l.foldl (fun u i => updateRotation c i.1 i.2.1 i.2.2 u) s).pitch = c)
    ∧ (l.foldl (fun u i => updateRotation c i.1 i.2.1 i.2.2 u) s).yaw
        = s.yaw - (l.map (fun i => i.1 * i.2.2 * ROTATION_SPEED)).sum := by
  have habs := abs_le.mp h0
  refine ⟨updateRotation_foldl_pitch_bound c hc l s h0, fun hy => ?_,
    fun hy hge => ?_, updateRotation_foldl_yaw c l s⟩
  · exact updateRotation_foldl_maxPitch c hc l s habs.1 habs.2 hy
      (fun i hi => (hin i hi).2.2)
  · rw [updateRotation_foldl_maxPitch c hc l s habs.1 habs.2 hy
      (fun i hi => (hin i hi).2.2)]
    exact min_eq_left hge

/-- Closed instantiation of `claim_C7_pitch_clamped`: one frame of maximal
pitch input with `delta = 1` against clamp 1 lands exactly on the clamp. -/
theorem claim_C7_pitch_clamped_witness :
    |(([((0 : ℚ), (-1 : ℚ), (1 : ℚ))]).foldl
        (fun u i => updateRotation 1 i.1 i.2.1 i.2.2 u)
        (GameManager.init witnessEnv)).pitch| ≤ 1
    ∧ (([((0 : ℚ), (-1 : ℚ), (1 : ℚ))]).foldl
        (fun u i => updateRotation 1 i.1 i.2.1 i.2.2 u)
        (GameManager.init witnessEnv)).pitch = 1 := by
  have H := claim_C7_pitch_clamped 1 (by norm_num) (GameManager.init witnessEnv)
    (by norm_num [GameManager.init, witnessEnv])
    [((0 : ℚ), (-1 : ℚ), (1 : ℚ))]
    (by intro i hi; simp at hi; subst hi; norm_num)
  refine ⟨H.1, ?_⟩
  rw [H.2.2.1 (by intro i hi; simp at hi; subst hi; rfl)
      (by norm_num [GameManager.init, witnessEnv, ROTATION_SPEED])]

end Game

namespace EventBus

theorem onVia_instanceId (w : BusWorld) (id event cb : Nat) (ord : Int) :
    (onVia w id event cb ord).instanceId = w.instanceId := by
  unfold onVia
  split <;> rfl

theorem newEventBus_of_some (w : BusWorld) (i : Nat)
    (h : w.instanceId = some i) : newEventBus w = (i, w) := by
  unfold newEventBus
  rw [h]

theorem runOps_ids (ops : List BOp) (w : BusWorld) (i : Nat)
    (h : w.instanceId = some i) :
    (∀ id ∈ (runOps w ops).2, id = i)
    ∧ (runOps w ops).1.instanceId = some i := by
  induction ops generalizing w with
  | nil => exact ⟨by simp [runOps], h⟩
  | cons op rest ih =>
      cases op with
      | construct =>
          have hnew := newEventBus_of_some w i h
          constructor
          · intro id hid
            simp only [runOps, hnew] at hid
            rcases List.mem_cons.mp hid with hid | hid
            · exact hid
            · exact (ih w h).1 id hid
          · simp only [runOps, hnew]
            exact (ih w h).2
      | onOp id' e cb ord =>
          have h' : (onVia w id' e cb ord).instanceId = some i := by
            rw [onVia_instanceId]; exact h
          exact ⟨fun id hid => (ih _ h').1 id hid, (ih _ h').2⟩

theorem getL_on'_self (b : Bus) (e cb : Nat) (ord : Int) :
    getL (on' b e cb ord) e
      = ((getL b e) ++ [(⟨cb, ord, b.seq⟩ : Listener)]).mergeSort listenerLe := by
  simp [getL, on', List.lookup]

theorem mem_emit_on' (b : Bus) (e cb : Nat) (ord : Int) :
    cb ∈ emit (on' b e cb ord) e := by
  unfold emit
  rw [getL_on'_self]
  refine List.mem_map.mpr ⟨⟨cb, ord, b.seq⟩, ?_, rfl⟩
  exact (List.mergeSort_perm _ _).mem_iff.mpr (by simp)

/-- C10: `new EventBus()` is idempotent after the first evaluation — every
later construction returns the identical first instance, through any
interleaving of constructions and registrations — so the listener table is
globally shared: a callback registered through the first returned value is
invoked by an emit through a value returned by a later `new EventBus()`. -/
theorem claim_C10_eventBus_singleton (w0 : BusWorld)
    (hw : w0.instanceId = none) (ops : List BOp) (e cb : Nat) :
    (∀ id ∈ (runOps (newEventBus w0).2 ops).2, id = (newEventBus w0).1)
    ∧ (newEventBus (newEventBus w0).2).1 = (newEventBus w0).1
    ∧ (newEventBus (newEventBus w0).2).2 = (newEventBus w0).2
    ∧ cb ∈ emitVia (onVia (newEventBus w0).2 (newEventBus w0).1 e cb 0)
        (newEventBus (onVia (newEventBus w0).2 (newEventBus w0).1 e cb 0)).1 e := by
  have h1 : (newEventBus w0).2.instanceId = some (newEventBus w0).1 := by
    unfold newEventBus
    rw [hw]
  have hvia : (onVia (newEventBus w0).2 (newEventBus w0).1 e cb 0)
      = { (newEventBus w0).2 with bus := on' (newEventBus w0).2.bus e cb 0 } := by
    unfold onVia
    rw [h1, if_pos rfl]
    simp only [h1]
  refine ⟨fun id hid => (runOps_ids ops _ _ h1).1 id hid, ?_, ?_, ?_⟩
  · rw [newEventBus_of_some _ _ h1]
  · rw [newEventBus_of_some _ _ h1]
  · rw [hvia]
    have h2 : ({ (newEventBus w0).2 with
        bus := on' (newEventBus w0).2.bus e cb 0 } : BusWorld).instanceId
        = some (newEventBus w0).1 := h1
    rw [newEventBus_of_some _ _ h2]
    unfold emitVia
    rw [h2]
    simp only [if_pos rfl]
    exact mem_emit_on' _ e cb 0

/-- Closed instantiation of `claim_C10_eventBus_singleton` on the empty
world: the second construction returns the first instance and delivers a
cross-instance registration. -/
theorem claim_C10_eventBus_singleton_witness :
    ((⟨none, 0, emptyBus⟩ : BusWorld).instanceId = none)
    ∧ (newEventBus (newEventBus ⟨none, 0, emptyBus⟩).2).1
        = (newEventBus (⟨none, 0, emptyBus⟩ : BusWorld)).1
    ∧ 5 ∈ emitVia
        (onVia (newEventBus ⟨none, 0, emptyBus⟩).2
          (newEventBus (⟨none, 0, emptyBus⟩ : BusWorld)).1 3 5 0)
        (newEventBus
          (onVia (newEventBus ⟨none, 0, emptyBus⟩).2
            (newEventBus (⟨none, 0, emptyBus⟩ : BusWorld)).1 3 5 0)).1 3 :=
  ⟨rfl,
    (claim_C10_eventBus_singleton ⟨none, 0, emptyBus⟩ rfl [] 3 5).2.1,
    (claim_C10_eventBus_singleton ⟨none, 0, emptyBus⟩ rfl [] 3 5).2.2.2⟩

end EventBus

namespace PlayerController

theorem fireWeapon_magAmmo (p : PlayerState) :
    (fireWeapon p).1.magAmmo = p.magAmmo - 1 := by
  unfold fireWeapon playWeaponAnim
  split <;> simp_all

theorem fireWeapon_canFire (p : PlayerState) :
    (fireWeapon p).1.canFire = false := by
  unfold fireWeapon playWeaponAnim
  split <;> simp_all

theorem fireWeapon_action (p : PlayerState) :
    (fireWeapon p).1.currentWeaponActionName = WeaponAction.fire := by
  unfold fireWeapon playWeaponAnim
  split <;> simp_all

theorem fireWeapon_events (p : PlayerState) :
    (fireWeapon p).2 = [GameEvent.shooting] := by
  unfold fireWeapon
  rfl

end PlayerController

namespace Game

open PlayerController


/-- C5: with the weapon ready, a `checkTargetHits` call whose centre ray
meets no target returns `false` and changes nothing at all; when the
nearest intersection's top-level container is visible, the weapon is fired
— ammo decremented, fire action playing, shooting notification emitted —
whether or not the hit eliminates the target, and the call reports `true`. -/
theorem claim_C5_hit_resolution (cfg : TargetController.TargetConfig)
    (ray : List Nat) (s : GameState)
    (hready : isWeaponReady s.player = true) :
    (ray = [] → checkTargetHits cfg ray s = (s, false, []))
    ∧ (∀ (idx : Nat) (rest : List Nat) (t : TargetController.Target),
        ray = idx :: rest → s.targets[idx]? = some t → t.visible = true →
        (checkTargetHits cfg ray s).2.1 = true
        ∧ (checkTargetHits cfg ray s).1.player.magAmmo = s.player.magAmmo - 1
        ∧ (checkTargetHits cfg ray s).1.player.canFire = false
        ∧ (checkTargetHits cfg ray s).1.player.currentWeaponActionName
            = WeaponAction.fire
        ∧ GameEvent.shooting ∈ (checkTargetHits cfg ray s).2.2) := by
  constructor
  · intro hray
    subst hray
    simp [checkTargetHits, hready]
  · intro idx rest t hray ht hvis
    subst hray
    unfold checkTargetHits
    rw [hready]
    simp only [Bool.not_true, Bool.false_eq_true, if_false, ht, hvis, if_true]
    by_cases he : (TargetController.onHit t).2 = true <;>
      by_cases hk :
          getEffectiveKillCountToWin cfg ≤ (s.killCount : Int) + 1 <;>
        simp [he, hk, fireWeapon_magAmmo, fireWeapon_canFire, fireWeapon_action,
          fireWeapon_events]

end Game

namespace Game

/-- Closed instantiation of `claim_C5_hit_resolution`: in a ready state
holding one fresh linear-preset target, a centre-ray hit on target 0
reports a hit and consumes one round. -/
theorem claim_C5_hit_resolution_witness :
    PlayerController.isWeaponReady
      (GameState.mk 0 false 0 0
        { PlayerController.setupInitialState zeroTransforms with canFire := true }
        [TargetController.mkTarget TargetController.CURRENT_TARGET_CONFIG
          ⟨0, 0, 0⟩ ⟨0, 0, 0⟩ ⟨-45, 0, -50⟩]).player = true
    ∧ (GameState.mk 0 false 0 0
        { PlayerController.setupInitialState zeroTransforms with canFire := true }
        [TargetController.mkTarget TargetController.CURRENT_TARGET_CONFIG
          ⟨0, 0, 0⟩ ⟨0, 0, 0⟩ ⟨-45, 0, -50⟩]).targets[0]?
        = some (TargetController.mkTarget TargetController.CURRENT_TARGET_CONFIG
            ⟨0, 0, 0⟩ ⟨0, 0, 0⟩ ⟨-45, 0, -50⟩)
    ∧ (checkTargetHits TargetController.CURRENT_TARGET_CONFIG [0]
        (GameState.mk 0 false 0 0
          { PlayerController.setupInitialState zeroTransforms with canFire := true }
          [TargetController.mkTarget TargetController.CURRENT_TARGET_CONFIG
            ⟨0, 0, 0⟩ ⟨0, 0, 0⟩ ⟨-45, 0, -50⟩])).2.1 = true
    ∧ (checkTargetHits TargetController.CURRENT_TARGET_CONFIG [0]
        (GameState.mk 0 false 0 0
          { PlayerController.setupInitialState zeroTransforms with canFire := true }
          [TargetController.mkTarget TargetController.CURRENT_TARGET_CONFIG
            ⟨0, 0, 0⟩ ⟨0, 0, 0⟩ ⟨-45, 0, -50⟩])).1.player.magAmmo
      = (GameState.mk 0 false 0 0
          { PlayerController.setupInitialState zeroTransforms with canFire := true }
          [TargetController.mkTarget TargetController.CURRENT_TARGET_CONFIG
            ⟨0, 0, 0⟩ ⟨0, 0, 0⟩ ⟨-45, 0, -50⟩]).player.magAmmo - 1 := by
  have H := claim_C5_hit_resolution TargetController.CURRENT_TARGET_CONFIG [0]
    (GameState.mk 0 false 0 0
      { PlayerController.setupInitialState zeroTransforms with canFire := true }
      [TargetController.mkTarget TargetController.CURRENT_TARGET_CONFIG
        ⟨0, 0, 0⟩ ⟨0, 0, 0⟩ ⟨-45, 0, -50⟩]) (by decide)
  have H2 := H.2 0 []
    (TargetController.mkTarget TargetController.CURRENT_TARGET_CONFIG
      ⟨0, 0, 0⟩ ⟨0, 0, 0⟩ ⟨-45, 0, -50⟩) rfl rfl rfl
  exact ⟨by decide, rfl, H2.1, H2.2.1⟩

end Game

namespace PlayerController

theorem playWeaponAnim_magAmmo (a : WeaponAction) (p : PlayerState) :
    (playWeaponAnim a p).magAmmo = p.magAmmo := by
  unfold playWeaponAnim
  split <;> rfl

theorem isWeaponReady_pos (p : PlayerState) (h : isWeaponReady p = true) :
    0 < p.magAmmo := by
  simp only [isWeaponReady, Bool.and_eq_true, decide_eq_true_eq] at h
  exact h.2

theorem onDeployFinished_magAmmo (p : PlayerState) :
    (onDeployFinished p).magAmmo = p.magAmmo := by
  unfold onDeployFinished
  split <;> simp [playWeaponAnim_magAmmo]

theorem onFireFinished_magAmmo (p : PlayerState) :
    (onFireFinished p).magAmmo = p.magAmmo := by
  unfold onFireFinished
  split
  · split <;> simp [playWeaponAnim_magAmmo]
  · rfl

theorem onReloadFinished_magAmmo (p : PlayerState) :
    (onReloadFinished p).magAmmo = p.magAmmo
    ∨ (onReloadFinished p).magAmmo = MAX_MAG_AMMO := by
  unfold onReloadFinished
  split
  · right
    simp [playWeaponAnim_magAmmo]
  · left
    rfl

theorem resetToInitialState_magAmmo (p : PlayerState) :
    (resetToInitialState p).magAmmo = MAX_MAG_AMMO := by
  unfold resetToInitialState
  simp [playWeaponAnim_magAmmo]

theorem update_magAmmo (b : Bool) (w : Vec3) (y pt d : ℚ) (p : PlayerState) :
    (update b w y pt d p).magAmmo = p.magAmmo := by
  unfold update
  dsimp only
  split <;> rfl

end PlayerController

namespace Game

open PlayerController


theorem checkTargetHits_ammo_cases (cfg : TargetController.TargetConfig)
    (ray : List Nat) (s : GameState) :
    (checkTargetHits cfg ray s).1.player.magAmmo = s.player.magAmmo
    ∨ ((checkTargetHits cfg ray s).1.player.magAmmo = s.player.magAmmo - 1
        ∧ 0 < s.player.magAmmo) := by
  by_cases hready : isWeaponReady s.player = true
  · cases ray with
    | nil =>
        left
        simp [checkTargetHits, hready]
    | cons idx rest =>
        cases hidx : s.targets[idx]? with
        | none =>
            left
            simp [checkTargetHits, hready, hidx]
        | some t =>
            by_cases hvis : t.visible = true
            · right
              refine ⟨?_, isWeaponReady_pos s.player hready⟩
              by_cases he : (TargetController.onHit t).2 = true <;>
                by_cases hk :
                    getEffectiveKillCountToWin cfg ≤ (s.killCount : Int) + 1 <;>
                  simp [checkTargetHits, hready, hidx, hvis, he, hk,
                    fireWeapon_magAmmo]
            · left
              simp only [Bool.not_eq_true] at hvis
              simp [checkTargetHits, hready, hidx, hvis]
  · left
    simp only [Bool.not_eq_true] at hready
    simp [checkTargetHits, hready]

theorem frameStep_ammo_cases (env : GameManager.Env)
    (inp : GameManager.FrameInput) (s : GameState) :
    (GameManager.frameStep env inp s).player.magAmmo = s.player.magAmmo
    ∨ ((GameManager.frameStep env inp s).player.magAmmo = s.player.magAmmo - 1
        ∧ 0 < s.player.magAmmo) := by
  unfold GameManager.frameStep
  dsimp only
  split
  · left
    rfl
  · have key : ∀ u : GameState, u.player.magAmmo = s.player.magAmmo →
        ((checkTargetHits env.cfg inp.ray u).1.player.magAmmo = s.player.magAmmo
         ∨ ((checkTargetHits env.cfg inp.ray u).1.player.magAmmo
              = s.player.magAmmo - 1
            ∧ 0 < s.player.magAmmo)) := by
      intro u hu
      rcases checkTargetHits_ammo_cases env.cfg inp.ray u with h | ⟨h, hp⟩
      · left
        rw [h, hu]
      · right
        rw [h, hu]
        exact ⟨rfl, hu ▸ hp⟩
    exact key _ (by simp [update_magAmmo, updateRotation])

theorem step_ammo (env : GameManager.Env) (s : GameState) (e : GameManager.Ev)
    (h0 : 0 ≤ s.player.magAmmo) (h1 : s.player.magAmmo ≤ MAX_MAG_AMMO) :
    0 ≤ (GameManager.step env s e).player.magAmmo
    ∧ (GameManager.step env s e).player.magAmmo ≤ MAX_MAG_AMMO := by
  cases e with
  | frame inp =>
      simp only [GameManager.step]
      rcases frameStep_ammo_cases env inp s with h | ⟨h, hp⟩ <;>
        rw [h] <;> constructor <;> omega
  | deployFinished =>
      simp only [GameManager.step]
      rw [onDeployFinished_magAmmo]
      exact ⟨h0, h1⟩
  | fireFinished =>
      simp only [GameManager.step]
      rw [onFireFinished_magAmmo]
      exact ⟨h0, h1⟩
  | reloadFinished =>
      simp only [GameManager.step]
      rcases onReloadFinished_magAmmo s.player with h | h <;> rw [h]
      · exact ⟨h0, h1⟩
      · exact ⟨by norm_num [MAX_MAG_AMMO], le_refl _⟩
  | playAgain =>
      simp only [GameManager.step]
      unfold GameManager.playAgainStep
      dsimp only
      rw [resetToInitialState_magAmmo]
      exact ⟨by norm_num [MAX_MAG_AMMO], le_refl _⟩

theorem foldl_step_ammo (env : GameManager.Env) (evs : List GameManager.Ev)
    (s : GameState) (h0 : 0 ≤ s.player.magAmmo)
    (h1 : s.player.magAmmo ≤ MAX_MAG_AMMO) :
    0 ≤ (evs.foldl (GameManager.step env) s).player.magAmmo
    ∧ (evs.foldl (GameManager.step env) s).player.magAmmo ≤ MAX_MAG_AMMO := by
  induction evs generalizing s with
  | nil => exact ⟨h0, h1⟩
  | cons e evs ih =>
      obtain ⟨g0, g1⟩ := step_ammo env s e h0 h1
      exact ih _ g0 g1

end Game

namespace Game

/-- C3: along every session execution (firing only ever happens through
`checkTargetHits`, gated by `isWeaponReady = canFire && magAmmo > 0`), the
invariant `0 ≤ magAmmo ≤ MAX_MAG_AMMO` holds at every observable instant,
and an attempted fire with `magAmmo = 0` is a complete no-op: no decrement,
no fire animation, no hit reported. -/
theorem claim_C3_ammo_invariant (env : GameManager.Env)
    (evs : List GameManager.Ev) :
    (0 ≤ (GameManager.run env evs).player.magAmmo
     ∧ (GameManager.run env evs).player.magAmmo ≤ MAX_MAG_AMMO)
    ∧ (∀ (cfg : TargetController.TargetConfig) (ray : List Nat) (s : GameState),
        s.player.magAmmo = 0 → checkTargetHits cfg ray s = (s, false, [])) := by
  constructor
  · exact foldl_step_ammo env evs (GameManager.init env) (by norm_num
      [GameManager.init, PlayerController.setupInitialState, MAX_MAG_AMMO])
      (by norm_num [GameManager.init, PlayerController.setupInitialState])
  · intro cfg ray s h
    have hready : PlayerController.isWeaponReady s.player = false := by
      simp [PlayerController.isWeaponReady, h]
    simp [checkTargetHits, hready]

/-- Closed instantiation of `claim_C3_ammo_invariant`: ammo bounds after one
deploy-complete event, and a dry-fire attempt at zero ammo is rejected. -/
theorem claim_C3_ammo_invariant_witness :
    (0 ≤ (GameManager.run witnessEnv [GameManager.Ev.deployFinished]).player.magAmmo
     ∧ (GameManager.run witnessEnv
          [GameManager.Ev.deployFinished]).player.magAmmo ≤ MAX_MAG_AMMO)
    ∧ checkTargetHits TargetController.CURRENT_TARGET_CONFIG [0]
        (GameState.mk 0 false 0 0
          { PlayerController.setupInitialState zeroTransforms with
              canFire := true, magAmmo := 0 }
          [TargetController.mkTarget TargetController.CURRENT_TARGET_CONFIG
            ⟨0, 0, 0⟩ ⟨0, 0, 0⟩ ⟨-45, 0, -50⟩])
      = (GameState.mk 0 false 0 0
          { PlayerController.setupInitialState zeroTransforms with
              canFire := true, magAmmo := 0 }
          [TargetController.mkTarget TargetController.CURRENT_TARGET_CONFIG
            ⟨0, 0, 0⟩ ⟨0, 0, 0⟩ ⟨-45, 0, -50⟩], false, []) :=
  ⟨(claim_C3_ammo_invariant witnessEnv [GameManager.Ev.deployFinished]).1,
   (claim_C3_ammo_invariant witnessEnv [GameManager.Ev.deployFinished]).2
     TargetController.CURRENT_TARGET_CONFIG [0] _ rfl⟩

end Game

namespace Game

open PlayerController

theorem checkTargetHits_win_cases (cfg : TargetController.TargetConfig)
    (ray : List Nat) (s : GameState) :
    ((checkTargetHits cfg ray s).1.killCount = s.killCount
      ∧ (checkTargetHits cfg ray s).1.isGameOver = s.isGameOver)
    ∨ ((checkTargetHits cfg ray s).1.killCount = s.killCount + 1
        ∧ (getEffectiveKillCountToWin cfg ≤ (s.killCount : Int) + 1
            → (checkTargetHits cfg ray s).1.isGameOver = true
              ∧ GameEvent.gameOver ∈ (checkTargetHits cfg ray s).2.2)
        ∧ (¬getEffectiveKillCountToWin cfg ≤ (s.killCount : Int) + 1
            → (checkTargetHits cfg ray s).1.isGameOver = s.isGameOver)) := by
  by_cases hready : isWeaponReady s.player = true
  · cases ray with
    | nil =>
        left
        simp [checkTargetHits, hready]
    | cons idx rest =>
        cases hidx : s.targets[idx]? with
        | none =>
            left
            simp [checkTargetHits, hready, hidx]
        | some t =>
            by_cases hvis : t.visible = true
            · by_cases he : (TargetController.onHit t).2 = true
              · right
                by_cases hk :
                    getEffectiveKillCountToWin cfg ≤ (s.killCount : Int) + 1 <;>
                  simp [checkTargetHits, hready, hidx, hvis, he, hk]
              · left
                simp [checkTargetHits, hready, hidx, hvis, he]
            · left
              simp only [Bool.not_eq_true] at hvis
              simp [checkTargetHits, hready, hidx, hvis]
  · left
    simp only [Bool.not_eq_true] at hready
    simp [checkTargetHits, hready]

theorem frameStep_win (env : GameManager.Env) (inp : GameManager.FrameInput)
    (s : GameState)
    (h1 : (s.isGameOver = true) ↔
      (s.killCount : Int) = getEffectiveKillCountToWin env.cfg)
    (h2 : (s.killCount : Int) ≤ getEffectiveKillCountToWin env.cfg) :
    (((GameManager.frameStep env inp s).isGameOver = true) ↔
      ((GameManager.frameStep env inp s).killCount : Int)
        = getEffectiveKillCountToWin env.cfg)
    ∧ ((GameManager.frameStep env inp s).killCount : Int)
        ≤ getEffectiveKillCountToWin env.cfg := by
  unfold GameManager.frameStep
  dsimp only
  split
  · exact ⟨h1, h2⟩
  · rename_i hgo
    have hgo' : s.isGameOver = false := by
      revert hgo
      show ¬({ s with targets := _ } : GameState).isGameOver = true → _
      simp
    have hne : (s.killCount : Int) ≠ getEffectiveKillCountToWin env.cfg := by
      intro hcontra
      rw [← h1] at hcontra
      rw [hgo'] at hcontra
      cases hcontra
    have key : ∀ u : GameState, u.killCount = s.killCount →
        u.isGameOver = s.isGameOver →
        (((checkTargetHits env.cfg inp.ray u).1.isGameOver = true) ↔
          ((checkTargetHits env.cfg inp.ray u).1.killCount : Int)
            = getEffectiveKillCountToWin env.cfg)
        ∧ ((checkTargetHits env.cfg inp.ray u).1.killCount : Int)
            ≤ getEffectiveKillCountToWin env.cfg := by
      intro u hkc hgo2
      rcases checkTargetHits_win_cases env.cfg inp.ray u with
        ⟨ha, hb⟩ | ⟨ha, hb, hc⟩
      · rw [ha, hb, hkc, hgo2]
        exact ⟨h1, h2⟩
      · rw [ha, hkc]
        by_cases hk : getEffectiveKillCountToWin env.cfg ≤ (s.killCount : Int) + 1
        · obtain ⟨hb1, _⟩ := hb (by rw [hkc]; exact hk)
          rw [hb1]
          constructor
          · constructor
            · intro _
              push_cast
              omega
            · intro _
              rfl
          · push_cast
            omega
        · have hc1 := hc (by rw [hkc]; exact hk)
          rw [hc1, hgo2, hgo']
          constructor
          · constructor
            · intro hcontra
              cases hcontra
            · intro hcontra
              exfalso
              push_cast at hcontra
              omega
          · push_cast
            omega
    exact key _ rfl rfl

theorem step_win (env : GameManager.Env)
    (hK : 1 ≤ getEffectiveKillCountToWin env.cfg) (s : GameState)
    (e : GameManager.Ev)
    (h1 : (s.isGameOver = true) ↔
      (s.killCount : Int) = getEffectiveKillCountToWin env.cfg)
    (h2 : (s.killCount : Int) ≤ getEffectiveKillCountToWin env.cfg) :
    (((GameManager.step env s e).isGameOver = true) ↔
      ((GameManager.step env s e).killCount : Int)
        = getEffectiveKillCountToWin env.cfg)
    ∧ ((GameManager.step env s e).killCount : Int)
        ≤ getEffectiveKillCountToWin env.cfg := by
  cases e with
  | frame inp =>
      simp only [GameManager.step]
      exact frameStep_win env inp s h1 h2
  | deployFinished => exact ⟨h1, h2⟩
  | fireFinished => exact ⟨h1, h2⟩
  | reloadFinished => exact ⟨h1, h2⟩
  | playAgain =>
      simp only [GameManager.step]
      have hgo : (GameManager.playAgainStep env s).isGameOver = false := rfl
      have hkc : (GameManager.playAgainStep env s).killCount = 0 := rfl
      rw [hgo, hkc]
      constructor
      · constructor
        · intro hcontra
          cases hcontra
        · intro hcontra
          exfalso
          push_cast at hcontra
          omega
      · push_cast
        omega

theorem foldl_step_win (env : GameManager.Env)
    (hK : 1 ≤ getEffectiveKillCountToWin env.cfg)
    (evs : List GameManager.Ev) (s : GameState)
    (h1 : (s.isGameOver = true) ↔
      (s.killCount : Int) = getEffectiveKillCountToWin env.cfg)
    (h2 : (s.killCount : Int) ≤ getEffectiveKillCountToWin env.cfg) :
    (((evs.foldl (GameManager.step env) s).isGameOver = true) ↔
      ((evs.foldl (GameManager.step env) s).killCount : Int)
        = getEffectiveKillCountToWin env.cfg)
    ∧ ((evs.foldl (GameManager.step env) s).killCount : Int)
        ≤ getEffectiveKillCountToWin env.cfg := by
  induction evs generalizing s with
  | nil => exact ⟨h1, h2⟩
  | cons e evs ih =>
      obtain ⟨g1, g2⟩ := step_win env hK s e h1 h2
      exact ih _ g1 g2

end Game

namespace Game

/-- C1: from session start (`killCount = 0`), the session is in game-over
exactly when the kill count has reached
`getEffectiveKillCountToWin = min(effectiveTargetCount, KILL_COUNT_TO_WIN)`
— never before, and the kill count never exceeds it; any `checkTargetHits`
call that brings the kill count up to the threshold sets `isGameOver` and
emits the game-over notification, and any call that leaves the kill count
below the threshold leaves `isGameOver` unchanged. -/
theorem claim_C1_win_condition (env : GameManager.Env)
    (hK : 1 ≤ getEffectiveKillCountToWin env.cfg)
    (evs : List GameManager.Ev) :
    (((GameManager.run env evs).isGameOver = true) ↔
      ((GameManager.run env evs).killCount : Int)
        = getEffectiveKillCountToWin env.cfg)
    ∧ ((GameManager.run env evs).killCount : Int)
        ≤ getEffectiveKillCountToWin env.cfg
    ∧ (∀ (cfg : TargetController.TargetConfig) (ray : List Nat) (u : GameState),
        (u.killCount : Int) < getEffectiveKillCountToWin cfg →
        ((checkTargetHits cfg ray u).1.killCount : Int)
            = getEffectiveKillCountToWin cfg →
        (checkTargetHits cfg ray u).1.isGameOver = true
        ∧ GameEvent.gameOver ∈ (checkTargetHits cfg ray u).2.2)
    ∧ (∀ (cfg : TargetController.TargetConfig) (ray : List Nat) (u : GameState),
        ((checkTargetHits cfg ray u).1.killCount : Int)
            < getEffectiveKillCountToWin cfg →
        (checkTargetHits cfg ray u).1.isGameOver = u.isGameOver) := by
  have hinit := foldl_step_win env hK evs (GameManager.init env)
    (by
      constructor
      · intro hcontra
        cases hcontra
      · intro hcontra
        exfalso
        have : ((GameManager.init env).killCount : Int) = 0 := rfl
        omega)
    (by
      have : ((GameManager.init env).killCount : Int) = 0 := rfl
      omega)
  refine ⟨hinit.1, hinit.2, fun cfg ray u hlt heq => ?_, fun cfg ray u hlt => ?_⟩
  · rcases checkTargetHits_win_cases cfg ray u with ⟨ha, _⟩ | ⟨ha, hb, _⟩
    · exfalso
      rw [ha] at heq
      omega
    · exact hb (by rw [ha] at heq; push_cast at heq; omega)
  · rcases checkTargetHits_win_cases cfg ray u with ⟨_, hb⟩ | ⟨ha, _, hc⟩
    · exact hb
    · exact hc (by rw [ha] at hlt; push_cast at hlt ⊢; omega)

/-- Closed instantiation of `claim_C1_win_condition` on the shipped linear
preset (`threshold = min(10, 20) = 10`): the fresh session is not game-over
and its kill count is within bounds. -/
theorem claim_C1_win_condition_witness :
    (1 : Int) ≤ getEffectiveKillCountToWin witnessEnv.cfg
    ∧ (((GameManager.run witnessEnv []).isGameOver = true) ↔
        ((GameManager.run witnessEnv []).killCount : Int)
          = getEffectiveKillCountToWin witnessEnv.cfg)
    ∧ ((GameManager.run witnessEnv []).killCount : Int)
        ≤ getEffectiveKillCountToWin witnessEnv.cfg :=
  ⟨by decide,
   (claim_C1_win_condition witnessEnv (by decide) []).1,
   (claim_C1_win_condition witnessEnv (by decide) []).2.1⟩

end Game

namespace TargetController

theorem calculateLinearPositions_length (cfg : TargetConfig) :
    (calculateLinearPositions cfg).length = cfg.count := by
  simp only [calculateLinearPositions, List.length_map, List.length_range]

theorem calculateCircularPositions_length (sinF cosF : ℚ → ℚ) (piQ : ℚ)
    (cfg : TargetConfig) :
    (calculateCircularPositions sinF cosF piQ cfg).length = cfg.count := by
  simp only [calculateCircularPositions, List.length_map, List.length_range]

theorem calculateGridPositions_length (cfg : TargetConfig) :
    (calculateGridPositions cfg).length = cfg.rows * cfg.cols := by
  simp only [calculateGridPositions, List.length_flatMap, List.map_map,
    Function.comp, List.length_map, List.length_range]
  induction cfg.rows with
  | zero => simp
  | succ n ih =>
      rw [List.range_succ]
      simp only [List.map_append, List.sum_append, List.map_cons, List.map_nil,
        List.sum_cons, List.sum_nil, Function.comp_apply, List.length_map,
        List.length_range]
      rw [ih]
      ring

theorem calculateVFormationPositions_length (sinF cosF : ℚ → ℚ)
    (cfg : TargetConfig) :
    (calculateVFormationPositions sinF cosF cfg).length = cfg.count := by
  simp only [calculateVFormationPositions, List.length_take, List.length_cons,
    List.length_append, List.length_map, List.length_range]
  omega

theorem scatterLoop_length (rand : Nat → Nat → ℚ × ℚ) (cfg : TargetConfig)
    (n : Nat) : ∀ acc : List Vec3,
    (scatterLoop rand cfg n acc).length = acc.length + n := by
  induction n with
  | zero =>
      intro acc
      simp [scatterLoop]
  | succ n ih =>
      intro acc
      show (scatterLoop rand cfg n _).length = _
      rw [ih]
      simp
      omega

theorem calculateScatteredPositions_length (rand : Nat → Nat → ℚ × ℚ)
    (cfg : TargetConfig) :
    (calculateScatteredPositions rand cfg).length = cfg.count := by
  unfold calculateScatteredPositions
  rw [scatterLoop_length]
  simp

theorem calculatePyramidPositions_length (cfg : TargetConfig) :
    (calculatePyramidPositions cfg).length
      = ((List.range cfg.rows).map (fun row => cfg.baseCount - row)).sum := by
  simp only [calculatePyramidPositions, List.length_flatMap, List.map_map,
    Function.comp_def, List.length_map, List.length_range]

theorem foldl_add_int (f : Nat → Int) (l : List Nat) (init : Int) :
    l.foldl (fun acc x => acc + f x) init = init + (l.map f).sum := by
  induction l generalizing init with
  | nil => simp
  | cons a l ih =>
      simp only [List.foldl_cons, List.map_cons, List.sum_cons]
      rw [ih]
      ring

theorem pyramid_sum_eq (b r : Nat) (h : r ≤ b) :
    (((List.range r).map (fun row => b - row)).sum : Int)
      = ∑ row ∈ Finset.range r, ((b : Int) - row) := by
  induction r with
  | zero => simp
  | succ n ih =>
      rw [List.range_succ, Finset.sum_range_succ]
      simp only [List.map_append, List.sum_append, List.map_cons, List.map_nil,
        List.sum_cons, List.sum_nil, Nat.add_zero]
      rw [Nat.cast_add, ih (by omega), Nat.cast_sub (by omega : n ≤ b)]

theorem list_range_sum_int (g : Nat → Int) (n : Nat) :
    ((List.range n).map g).sum = ∑ i ∈ Finset.range n, g i := by
  induction n with
  | zero => simp
  | succ n ih =>
      rw [List.range_succ, Finset.sum_range_succ]
      simp only [List.map_append, List.sum_append, List.map_cons, List.map_nil,
        List.sum_cons, List.sum_nil, add_zero]
      rw [ih]

/-- C4: for every configuration, position generation returns exactly the
layout's effective target count — `count` for linear, circular,
v-formation, moving (and the default branch), `rows * cols` for the grid,
`Σ (baseCount - r)` for the pyramid (with `rows ≤ baseCount` so every row
is populated), and exactly `count` for scattered regardless of the random
stream (the 100-attempt relaxation always accepts a point, never drops
one) — and `getTargetCount` reports the same number. -/
theorem claim_C4_layout_counts (sinF cosF : ℚ → ℚ) (piQ : ℚ)
    (rand : Nat → Nat → ℚ × ℚ) (cfg : TargetConfig)
    (hpy : cfg.layout = Layout.pyramid → cfg.rows ≤ cfg.baseCount) :
    ((calculateTargetPositions sinF cosF piQ rand cfg).length : Int)
        = getTargetCount cfg
    ∧ (match cfg.layout with
        | Layout.grid =>
            (calculateTargetPositions sinF cosF piQ rand cfg).length
              = cfg.rows * cfg.cols
        | Layout.pyramid =>
            ((calculateTargetPositions sinF cosF piQ rand cfg).length : Int)
              = ∑ row ∈ Finset.range cfg.rows, ((cfg.baseCount : Int) - row)
        | _ =>
            (calculateTargetPositions sinF cosF piQ rand cfg).length
              = cfg.count) := by
  cases hl : cfg.layout with
  | linear =>
      refine ⟨?_, ?_⟩ <;>
        simp [calculateTargetPositions, hl, getTargetCount,
          calculateLinearPositions_length]
  | circular =>
      refine ⟨?_, ?_⟩ <;>
        simp [calculateTargetPositions, hl, getTargetCount,
          calculateCircularPositions_length]
  | grid =>
      refine ⟨?_, ?_⟩ <;>
        simp [calculateTargetPositions, hl, getTargetCount,
          calculateGridPositions_length]
  | v_formation =>
      refine ⟨?_, ?_⟩ <;>
        simp [calculateTargetPositions, hl, getTargetCount,
          calculateVFormationPositions_length]
  | scattered =>
      refine ⟨?_, ?_⟩ <;>
        simp [calculateTargetPositions, hl, getTargetCount,
          calculateScatteredPositions_length]
  | pyramid =>
      have hb := hpy hl
      constructor
      · simp only [calculateTargetPositions, hl, getTargetCount]
        rw [calculatePyramidPositions_length, pyramid_sum_eq _ _ hb,
          foldl_add_int, list_range_sum_int]
        simp
      · simp only [hl, calculateTargetPositions]
        rw [calculatePyramidPositions_length, pyramid_sum_eq _ _ hb]
  | moving =>
      refine ⟨?_, ?_⟩ <;>
        simp [calculateTargetPositions, hl, getTargetCount,
          calculateLinearPositions_length]

/-- Closed instantiation of `claim_C4_layout_counts` on the shipped pyramid
preset (`baseCount = 5`, `rows = 5`): 15 positions, matching
`getTargetCount`. -/
theorem claim_C4_layout_counts_witness :
    TARGET_CONFIGS_PYRAMID.rows ≤ TARGET_CONFIGS_PYRAMID.baseCount
    ∧ ((calculateTargetPositions (fun _ => 0) (fun _ => 0) 0 (fun _ _ => (0, 0))
          TARGET_CONFIGS_PYRAMID).length : Int)
        = getTargetCount TARGET_CONFIGS_PYRAMID
    ∧ getTargetCount TARGET_CONFIGS_PYRAMID = 15 :=
  ⟨by decide,
   (claim_C4_layout_counts (fun _ => 0) (fun _ => 0) 0 (fun _ _ => (0, 0))
      TARGET_CONFIGS_PYRAMID (fun _ => by decide)).1,
   by decide⟩

end TargetController

namespace TargetController

theorem updateElimOne_of_notAnimating (delta : ℚ) (t : Target)
    (h : t.anim.isAnimating = false) : updateElimOne delta t = t := by
  simp [updateElimOne, h]

theorem updateElimOne_position (delta : ℚ) (t : Target) :
    (updateElimOne delta t).position = t.position := by
  unfold updateElimOne
  split
  · dsimp only
    split <;> rfl
  · rfl

theorem updateElimOne_eliminated (delta : ℚ) (t : Target) :
    (updateElimOne delta t).eliminated = t.eliminated := by
  unfold updateElimOne
  split
  · dsimp only
    split <;> rfl
  · rfl

theorem updateElimOne_move (delta : ℚ) (t : Target) :
    (updateElimOne delta t).move = t.move := by
  unfold updateElimOne
  split
  · dsimp only
    split <;> rfl
  · rfl

theorem updateMoveOne_of_eliminated (sinF : ℚ → ℚ) (delta : ℚ) (t : Target)
    (h : t.eliminated = true) : updateMoveOne sinF delta t = t := by
  unfold updateMoveOne
  split
  · rfl
  · simp [h]

theorem updateAnimationsOne_eliminated_position (sinF : ℚ → ℚ) (delta : ℚ)
    (t : Target) (h : t.eliminated = true) :
    (updateAnimationsOne sinF delta t).position = t.position := by
  unfold updateAnimationsOne
  rw [updateMoveOne_of_eliminated sinF delta _ (by
    rw [updateElimOne_eliminated]; exact h)]
  exact updateElimOne_position delta t

theorem updateAnimationsOne_moving (sinF : ℚ → ℚ) (delta : ℚ) (t : Target)
    (m : MoveState) (hm : t.move = some m) (helim : t.eliminated = false)
    (hanim : t.anim.isAnimating = false) :
    updateAnimationsOne sinF delta t =
      { t with
          move := some { m with time := m.time + delta * m.speed }
          position :=
            { t.position with
                x :=
                  if m.axis = MoveAxis.x ∨ m.axis = MoveAxis.both then
                    m.startPosition.x
                      + sinF (m.time + delta * m.speed) * m.amplitude
                  else t.position.x
                z :=
                  if m.axis = MoveAxis.z ∨ m.axis = MoveAxis.both then
                    m.startPosition.z
                      + sinF (m.time + delta * m.speed) * m.amplitude
                  else t.position.z } } := by
  unfold updateAnimationsOne
  rw [updateElimOne_of_notAnimating delta t hanim]
  unfold updateMoveOne
  rw [hm]
  simp [helim]

theorem foldFrames_moving (sinF : ℚ → ℚ) (ds : List ℚ) (t : Target)
    (m : MoveState) (hm : t.move = some m) (helim : t.eliminated = false)
    (hanim : t.anim.isAnimating = false) :
    (ds.foldl (fun u d => updateAnimationsOne sinF d u) t).eliminated = false
    ∧ (ds ≠ [] →
        ((m.axis = MoveAxis.x ∨ m.axis = MoveAxis.both) →
          (ds.foldl (fun u d => updateAnimationsOne sinF d u) t).position.x
            = m.startPosition.x
              + sinF (m.time + ds.sum * m.speed) * m.amplitude)
        ∧ ((m.axis = MoveAxis.z ∨ m.axis = MoveAxis.both) →
          (ds.foldl (fun u d => updateAnimationsOne sinF d u) t).position.z
            = m.startPosition.z
              + sinF (m.time + ds.sum * m.speed) * m.amplitude)) := by
  induction ds generalizing t m with
  | nil => exact ⟨helim, fun h => absurd rfl h⟩
  | cons d ds ih =>
      rw [List.foldl_cons, updateAnimationsOne_moving sinF d t m hm helim hanim]
      have h1 := ih
        ({ t with
            move := some { m with time := m.time + d * m.speed }
            position :=
              { t.position with
                  x :=
                    if m.axis = MoveAxis.x ∨ m.axis = MoveAxis.both then
                      m.startPosition.x
                        + sinF (m.time + d * m.speed) * m.amplitude
                    else t.position.x
                  z :=
                    if m.axis = MoveAxis.z ∨ m.axis = MoveAxis.both then
                      m.startPosition.z
                        + sinF (m.time + d * m.speed) * m.amplitude
                    else t.position.z } })
        { m with time := m.time + d * m.speed } rfl helim hanim
      refine ⟨h1.1, fun _ => ?_⟩
      cases hds : ds with
      | nil =>
          subst hds
          simp only [List.foldl_nil, List.sum_cons, List.sum_nil, add_zero]
          constructor
          · intro hax
            rw [if_pos hax]
          · intro hax
            rw [if_pos hax]
      | cons d2 ds2 =>
          have hne : ds ≠ [] := by rw [hds]; exact List.cons_ne_nil d2 ds2
          rw [← hds] at *
          obtain ⟨hx, hz⟩ := h1.2 hne
          constructor
          · intro hax
            rw [hx hax]
            simp only [List.sum_cons]
            congr 2
            ring
          · intro hax
            rw [hz hax]
            simp only [List.sum_cons]
            congr 2
            ring

end TargetController

namespace TargetController

/-- C8: a fresh target with a movement record (`time = 0`, not eliminated,
animation unarmed) satisfies, after every non-empty frame sequence during
which it is never hit, `position = startPosition + amplitude * sin(accTime
* speed)` on each configured axis, where `accTime` is the summed frame
deltas (`time` accumulates `delta * speed` each frame); it stays
non-eliminated under `updateAnimations` alone; and once `eliminated` is
set, `updateAnimations` no longer changes the target's position — movement
stops at elimination, even while the target is still visible. -/
theorem claim_C8_moving_position (sinF : ℚ → ℚ) (t : Target) (m : MoveState)
    (hm : t.move = some m) (ht0 : m.time = 0) (helim : t.eliminated = false)
    (hanim : t.anim.isAnimating = false) (ds : List ℚ) (hds : ds ≠ []) :
    ((m.axis = MoveAxis.x ∨ m.axis = MoveAxis.both) →
      (ds.foldl (fun u d => updateAnimationsOne sinF d u) t).position.x
        = m.startPosition.x + sinF (ds.sum * m.speed) * m.amplitude)
    ∧ ((m.axis = MoveAxis.z ∨ m.axis = MoveAxis.both) →
      (ds.foldl (fun u d => updateAnimationsOne sinF d u) t).position.z
        = m.startPosition.z + sinF (ds.sum * m.speed) * m.amplitude)
    ∧ (ds.foldl (fun u d => updateAnimationsOne sinF d u) t).eliminated = false
    ∧ (∀ (u : Target) (d : ℚ), u.eliminated = true →
        (updateAnimationsOne sinF d u).position = u.position) := by
  obtain ⟨h1, h2⟩ := foldFrames_moving sinF ds t m hm helim hanim
  obtain ⟨hx, hz⟩ := h2 hds
  rw [ht0] at hx hz
  simp only [zero_add] at hx hz
  exact ⟨hx, hz, h1, fun u d hu => updateAnimationsOne_eliminated_position sinF d u hu⟩

/-- Closed instantiation of `claim_C8_moving_position` on the shipped
moving preset's first target (`amplitude = 5`, `speed = 2`, axis `both`)
after one frame of `delta = 1`. -/
theorem claim_C8_moving_position_witness :
    (mkTarget TARGET_CONFIGS_MOVING ⟨0, 0, 0⟩ ⟨0, 0, 0⟩ ⟨-30, 0, -50⟩).move
      = some ⟨⟨-30, 0, -50⟩, 0, 5, 2, MoveAxis.both⟩
    ∧ (mkTarget TARGET_CONFIGS_MOVING ⟨0, 0, 0⟩ ⟨0, 0, 0⟩ ⟨-30, 0, -50⟩).eliminated
        = false
    ∧ ([(1 : ℚ)].foldl (fun u d => updateAnimationsOne (fun _ => 0) d u)
        (mkTarget TARGET_CONFIGS_MOVING ⟨0, 0, 0⟩ ⟨0, 0, 0⟩ ⟨-30, 0, -50⟩)).position.x
      = -30 + (0 : ℚ) * 5 := by
  have H := claim_C8_moving_position (fun _ => 0)
    (mkTarget TARGET_CONFIGS_MOVING ⟨0, 0, 0⟩ ⟨0, 0, 0⟩ ⟨-30, 0, -50⟩)
    ⟨⟨-30, 0, -50⟩, 0, 5, 2, MoveAxis.both⟩ (by decide) rfl rfl rfl
    [(1 : ℚ)] (by simp)
  exact ⟨by decide, rfl, H.1 (Or.inr rfl)⟩

end TargetController

namespace EventBus

theorem listenerLe_trans (a b c : Listener) (hab : listenerLe a b = true)
    (hbc : listenerLe b c = true) : listenerLe a c = true := by
  simp only [listenerLe] at *
  split_ifs at * <;> simp_all <;> omega

theorem listenerLe_total (a b : Listener) :
    (listenerLe a b || listenerLe b a) = true := by
  simp only [listenerLe]
  split_ifs <;> simp_all <;> omega

theorem getL_emptyBus (e : Nat) : getL emptyBus e = [] := rfl

theorem getL_on'_ne (b : Bus) (e' cb : Nat) (o : Int) (e : Nat)
    (h : e ≠ e') : getL (on' b e' cb o) e = getL b e := by
  simp only [getL, on', List.lookup]
  have : (e == e') = false := beq_false_of_ne h
  rw [this]

theorem on'_seq (b : Bus) (e cb : Nat) (o : Int) :
    (on' b e cb o).seq = b.seq + 1 := rfl

theorem regsFor_seq_bound (e : Nat) (rs : List Reg) :
    ∀ (seq0 : Nat) (l : Listener), l ∈ regsFor e rs seq0 → seq0 ≤ l.seq := by
  induction rs with
  | nil =>
      intro seq0 l hl
      simp [regsFor] at hl
  | cons r rest ih =>
      intro seq0 l hl
      simp only [regsFor, List.mem_append] at hl
      rcases hl with hl | hl
      · split_ifs at hl with he
        · simp at hl
          subst hl
          exact le_refl _
        · simp at hl
      · have := ih (seq0 + 1) l hl
        omega

end EventBus

namespace EventBus

theorem register_invariants (rs : List Reg) : ∀ (bus : Bus) (e : Nat),
    (∀ l ∈ getL bus e, l.seq < bus.seq) →
    List.Pairwise (fun a b => listenerLe a b = true) (getL bus e) →
    List.Pairwise (fun a b => a.seq ≠ b.seq) (getL bus e) →
    ((getL (register bus rs) e).Perm (getL bus e ++ regsFor e rs bus.seq)
     ∧ List.Pairwise (fun a b => listenerLe a b = true)
         (getL (register bus rs) e)
     ∧ List.Pairwise (fun a b => a.seq ≠ b.seq) (getL (register bus rs) e)) := by
  induction rs with
  | nil =>
      intro bus e hseq hsort hdis
      refine ⟨?_, hsort, hdis⟩
      simp [register, regsFor]
  | cons r rest ih =>
      intro bus e hseq hsort hdis
      have hreg : register bus (r :: rest)
          = register (on' bus r.event r.cb r.order) rest := rfl
      by_cases he : r.event = e
      · subst he
        have hGL : getL (on' bus r.event r.cb r.order) r.event
            = ((getL bus r.event)
                ++ [(⟨r.cb, r.order, bus.seq⟩ : Listener)]).mergeSort listenerLe :=
          getL_on'_self bus r.event r.cb r.order
        have hperm1 : (getL (on' bus r.event r.cb r.order) r.event).Perm
            ((getL bus r.event) ++ [(⟨r.cb, r.order, bus.seq⟩ : Listener)]) := by
          rw [hGL]
          exact List.mergeSort_perm _ _
        have hseq' : ∀ l ∈ getL (on' bus r.event r.cb r.order) r.event,
            l.seq < (on' bus r.event r.cb r.order).seq := by
          intro l hl
          rw [on'_seq]
          have := hperm1.mem_iff.mp hl
          simp only [List.mem_append, List.mem_singleton] at this
          rcases this with h | h
          · have := hseq l h
            omega
          · subst h
            exact Nat.lt_succ_self bus.seq
        have hsort' : List.Pairwise (fun a b => listenerLe a b = true)
            (getL (on' bus r.event r.cb r.order) r.event) := by
          rw [hGL]
          exact List.sorted_mergeSort (fun a b c => listenerLe_trans a b c)
            listenerLe_total _
        have hdis' : List.Pairwise (fun a b => a.seq ≠ b.seq)
            (getL (on' bus r.event r.cb r.order) r.event) := by
          refine (hperm1.pairwise_iff (fun h => Ne.symm h)).mpr ?_
          rw [List.pairwise_append]
          refine ⟨hdis, List.pairwise_singleton _ _, ?_⟩
          intro a ha b hb
          simp only [List.mem_singleton] at hb
          subst hb
          have := hseq a ha
          show a.seq ≠ bus.seq
          omega
        obtain ⟨ihp, ihs, ihd⟩ :=
          ih (on' bus r.event r.cb r.order) r.event hseq' hsort' hdis'
        refine ⟨?_, ?_, ?_⟩
        · rw [hreg]
          refine ihp.trans ?_
          rw [on'_seq]
          refine (hperm1.append_right _).trans ?_
          rw [List.append_assoc]
          have : regsFor r.event (r :: rest) bus.seq
              = [(⟨r.cb, r.order, bus.seq⟩ : Listener)]
                ++ regsFor r.event rest (bus.seq + 1) := by
            simp [regsFor]
          rw [this]
        · rw [hreg]
          exact ihs
        · rw [hreg]
          exact ihd
      · have hGL : getL (on' bus r.event r.cb r.order) e = getL bus e :=
          getL_on'_ne bus r.event r.cb r.order e (fun h => he h.symm)
        have hseq' : ∀ l ∈ getL (on' bus r.event r.cb r.order) e,
            l.seq < (on' bus r.event r.cb r.order).seq := by
          intro l hl
          rw [on'_seq]
          rw [hGL] at hl
          have := hseq l hl
          omega
        obtain ⟨ihp, ihs, ihd⟩ := ih (on' bus r.event r.cb r.order) e hseq'
          (hGL ▸ hsort) (hGL ▸ hdis)
        refine ⟨?_, ?_, ?_⟩
        · rw [hreg]
          refine ihp.trans ?_
          rw [hGL, on'_seq]
          have : regsFor e (r :: rest) bus.seq
              = regsFor e rest (bus.seq + 1) := by
            simp [regsFor, he]
          rw [this]
        · rw [hreg]
          exact ihs
        · rw [hreg]
          exact ihd

end EventBus

namespace EventBus

/-- C9: for every event name and every registration sequence, `emit`
invokes exactly the callbacks registered for that event (the bus's listener
array is a permutation of them, each represented once, carrying its global
registration sequence number) and the array is strictly ascending in
`(priority, registration sequence)`: a lower `order` value fires first and
equal orders fire in registration order, whatever the interleaving of `on`
calls across priorities. -/
theorem claim_C9_emit_order (rs : List Reg) (e : Nat) :
    emit (register emptyBus rs) e = (getL (register emptyBus rs) e).map (·.cb)
    ∧ (getL (register emptyBus rs) e).Perm (regsFor e rs 0)
    ∧ List.Pairwise
        (fun a b => a.order < b.order ∨ (a.order = b.order ∧ a.seq < b.seq))
        (getL (register emptyBus rs) e) := by
  obtain ⟨hp, hs, hd⟩ := register_invariants rs emptyBus e
    (by simp [getL_emptyBus]) (by simp [getL_emptyBus])
    (by simp [getL_emptyBus])
  refine ⟨rfl, ?_, ?_⟩
  · simpa [getL_emptyBus, emptyBus] using hp
  · refine (hs.and hd).imp ?_
    intro a b hab
    obtain ⟨hle, hne⟩ := hab
    simp only [listenerLe] at hle
    by_cases ho : a.order = b.order
    · rw [if_pos ho] at hle
      simp only [decide_eq_true_eq] at hle
      exact Or.inr ⟨ho, by omega⟩
    · rw [if_neg ho] at hle
      simp only [decide_eq_true_eq] at hle
      exact Or.inl hle

end EventBus

namespace TargetController

theorem updateElimOne_startRotation (delta : ℚ) (t : Target) :
    (updateElimOne delta t).anim.startRotation = t.anim.startRotation := by
  unfold updateElimOne
  split
  · dsimp only
    split <;> rfl
  · rfl

theorem updateElimOne_hp (delta : ℚ) (t : Target) :
    (updateElimOne delta t).hp = t.hp := by
  unfold updateElimOne
  split
  · dsimp only
    split <;> rfl
  · rfl

theorem updateMoveOne_some (sinF : ℚ → ℚ) (delta : ℚ) (t : Target)
    (m : MoveState) (hm : t.move = some m) (helim : t.eliminated = false) :
    updateMoveOne sinF delta t =
      { t with
          move := some { m with time := m.time + delta * m.speed }
          position :=
            { t.position with
                x :=
                  if m.axis = MoveAxis.x ∨ m.axis = MoveAxis.both then
                    m.startPosition.x
                      + sinF (m.time + delta * m.speed) * m.amplitude
                  else t.position.x
                z :=
                  if m.axis = MoveAxis.z ∨ m.axis = MoveAxis.both then
                    m.startPosition.z
                      + sinF (m.time + delta * m.speed) * m.amplitude
                  else t.position.z } } := by
  unfold updateMoveOne
  rw [hm]
  simp [helim]

theorem updateMoveOne_none (sinF : ℚ → ℚ) (delta : ℚ) (t : Target)
    (hm : t.move = none) : updateMoveOne sinF delta t = t := by
  unfold updateMoveOne
  rw [hm]

theorem eliminated_false_of_ne_true (t : Target) (h : ¬t.eliminated = true) :
    t.eliminated = false := by
  revert h
  cases t.eliminated <;> simp

theorem targetInv_updateAnimationsOne (initRot : Euler) (pos : Vec3)
    (sinF : ℚ → ℚ) (d : ℚ) (t : Target) (h : targetInv initRot pos t) :
    targetInv initRot pos (updateAnimationsOne sinF d t) := by
  obtain ⟨h1, h2, h3, h4, h5⟩ := h
  by_cases he : t.eliminated = true
  · rw [updateAnimationsOne, updateMoveOne_of_eliminated sinF d _
      (by rw [updateElimOne_eliminated]; exact he)]
    refine ⟨?_, ?_, ?_, ?_, ?_⟩
    · rw [updateElimOne_startRotation]
      exact h1
    · intro hfalse
      rw [updateElimOne_eliminated, he] at hfalse
      cases hfalse
    · intro _
      rw [updateElimOne_hp]
      exact h3 he
    · intro hmv
      rw [updateElimOne_move] at hmv
      rw [updateElimOne_position]
      exact h4 hmv
    · intro m hmv
      rw [updateElimOne_move] at hmv
      exact h5 m hmv
  · have he' := eliminated_false_of_ne_true t he
    obtain ⟨hrot, hanim⟩ := h2 he'
    rw [updateAnimationsOne, updateElimOne_of_notAnimating d t hanim]
    cases hmv : t.move with
    | none =>
        rw [updateMoveOne_none sinF d t hmv]
        exact ⟨h1, h2, h3, h4, h5⟩
    | some m =>
        rw [updateMoveOne_some sinF d t m hmv he']
        refine ⟨h1, fun _ => ⟨hrot, hanim⟩, ?_, ?_, ?_⟩
        · intro hcontra
          rw [he'] at hcontra
          cases hcontra
        · intro hnone
          cases hnone
        · intro m' hm'
          have : m' = { m with time := m.time + d * m.speed } := by
            cases hm'
            rfl
          rw [this]
          exact h5 m hmv

theorem onHit_position (t : Target) : (onHit t).1.position = t.position := by
  unfold onHit
  split
  · rfl
  · dsimp only
    split
    · exact (startElim_fields _).2.1
    · rfl

theorem onHit_move (t : Target) : (onHit t).1.move = t.move := by
  unfold onHit startTargetEliminationAnimation
  split
  · rfl
  · dsimp only
    split
    · split <;> rfl
    · rfl

theorem onHit_rotation (t : Target) : (onHit t).1.rotation = t.rotation := by
  unfold onHit startTargetEliminationAnimation
  split
  · rfl
  · dsimp only
    split
    · split <;> rfl
    · rfl

theorem targetInv_onHit (initRot : Euler) (pos : Vec3) (t : Target)
    (h : targetInv initRot pos t) : targetInv initRot pos (onHit t).1 := by
  obtain ⟨h1, h2, h3, h4, h5⟩ := h
  by_cases hlt : t.hp < 1
  · rw [onHit_of_lt t hlt]
    exact ⟨h1, h2, h3, h4, h5⟩
  · have hge : 1 ≤ t.hp := by omega
    have he' : t.eliminated = false := by
      by_cases he : t.eliminated = true
      · exact absurd (h3 he) hlt
      · exact eliminated_false_of_ne_true t he
    obtain ⟨hrot, hanim⟩ := h2 he'
    by_cases h1hp : t.hp = 1
    · rw [onHit_elim t h1hp hanim]
      dsimp only
      refine ⟨?_, ?_, ?_, ?_, ?_⟩
      · rw [hrot]
      · intro hcontra
        cases hcontra
      · intro _
        norm_num
      · intro hmv
        exact h4 hmv
      · intro m hmv
        exact h5 m hmv
    · rw [onHit_nonelim t (by omega)]
      dsimp only
      refine ⟨h1, fun _ => ⟨hrot, hanim⟩, ?_, ?_, ?_⟩
      · intro hc
        rw [he'] at hc
        cases hc
      · intro hmv
        exact h4 hmv
      · intro m hm
        exact h5 m hm

theorem resetTargetOne_eq (cfg : TargetConfig) (t : Target) :
    resetTargetOne cfg t =
      (match t.move with
        | some m =>
            { t with
                visible := true
                hp := cfg.hp
                eliminated := false
                anim := { t.anim with isAnimating := false, animationProgress := 0 }
                rotation := t.anim.startRotation
                move := some { m with time := 0 }
                position := m.startPosition }
        | none =>
            { t with
                visible := true
                hp := cfg.hp
                eliminated := false
                anim := { t.anim with isAnimating := false, animationProgress := 0 }
                rotation := t.anim.startRotation }) := by
  unfold resetTargetOne
  cases t.move <;> rfl

theorem targetInv_resetTargetOne (initRot : Euler) (pos : Vec3)
    (cfg : TargetConfig) (t : Target) (h : targetInv initRot pos t) :
    targetInv initRot pos (resetTargetOne cfg t)
    ∧ (resetTargetOne cfg t).hp = cfg.hp
    ∧ (resetTargetOne cfg t).eliminated = false
    ∧ (resetTargetOne cfg t).visible = true
    ∧ (resetTargetOne cfg t).anim.isAnimating = false
    ∧ (resetTargetOne cfg t).anim.animationProgress = 0
    ∧ (resetTargetOne cfg t).rotation = initRot
    ∧ (resetTargetOne cfg t).position = pos := by
  obtain ⟨h1, h2, h3, h4, h5⟩ := h
  rw [resetTargetOne_eq]
  cases hmv : t.move with
  | none =>
      refine ⟨⟨h1, fun _ => ⟨h1, rfl⟩, ?_, ?_, ?_⟩, rfl, rfl, rfl, rfl, rfl,
        h1, h4 hmv⟩
      · intro hc
        simp at hc
      · intro _
        exact h4 hmv
      · intro m hm
        simp at hm
  | some m =>
      refine ⟨⟨h1, fun _ => ⟨h1, rfl⟩, ?_, ?_, ?_⟩, rfl, rfl, rfl, rfl, rfl,
        h1, h5 m hmv⟩
      · intro hc
        simp at hc
      · intro hc
        simp at hc
      · intro m' hm'
        simp only [Option.some.injEq] at hm'
        rw [← hm']
        exact h5 m hmv

theorem targetInv_mkTarget (cfg : TargetConfig) (initRot elimRot : Euler)
    (pos : Vec3) : targetInv initRot pos (mkTarget cfg initRot elimRot pos) := by
  refine ⟨rfl, fun _ => ⟨rfl, rfl⟩, ?_, fun _ => rfl, ?_⟩
  · intro hc
    simp [mkTarget] at hc
  · intro m hm
    simp only [mkTarget] at hm
    split at hm
    · simp only [Option.some.injEq] at hm
      rw [← hm]
    · cases hm

end TargetController

theorem forall₂_getElem? {α β : Type} {R : α → β → Prop} :
    ∀ {l₁ : List α} {l₂ : List β}, List.Forall₂ R l₁ l₂ →
      ∀ (i : Nat) (b : β), l₂[i]? = some b →
        ∃ a, l₁[i]? = some a ∧ R a b := by
  intro l₁ l₂ h
  induction h with
  | nil =>
      intro i b hb
      simp at hb
  | cons hab _ ih =>
      intro i b hb
      cases i with
      | zero =>
          simp only [List.getElem?_cons_zero, Option.some.injEq] at hb ⊢
          exact ⟨_, rfl, hb ▸ hab⟩
      | succ i =>
          simp only [List.getElem?_cons_succ] at hb ⊢
          exact ih i b hb

theorem forall₂_set {α β : Type} {R : α → β → Prop} :
    ∀ {l₁ : List α} {l₂ : List β}, List.Forall₂ R l₁ l₂ →
      ∀ (i : Nat) (b : β), (∀ a, l₁[i]? = some a → R a b) →
        List.Forall₂ R l₁ (l₂.set i b) := by
  intro l₁ l₂ h
  induction h with
  | nil =>
      intro i b _
      simp [List.Forall₂.nil]
  | @cons a b' l₁' l₂' hab htail ih =>
      intro i c hc
      cases i with
      | zero =>
          rw [List.set_cons_zero]
          exact List.Forall₂.cons (hc a (by simp)) htail
      | succ i =>
          rw [List.set_cons_succ]
          refine List.Forall₂.cons hab (ih i c ?_)
          intro a' ha'
          exact hc a' (by simpa using ha')

theorem forall₂_map_right {α β : Type} {R S : α → β → Prop} {f : β → β}
    {l₁ : List α} {l₂ : List β} (h : List.Forall₂ R l₁ l₂)
    (hf : ∀ a b, R a b → S a (f b)) : List.Forall₂ S l₁ (l₂.map f) := by
  induction h with
  | nil => simp [List.Forall₂.nil]
  | @cons a b l₁' l₂' hab _ ih => exact List.Forall₂.cons (hf a b hab) ih

theorem forall₂_self_map {α β : Type} {R : α → β → Prop} (f : α → β) :
    ∀ l : List α, (∀ a ∈ l, R a (f a)) → List.Forall₂ R l (l.map f) := by
  intro l
  induction l with
  | nil =>
      intro _
      simp [List.Forall₂.nil]
  | cons a l ih =>
      intro h
      exact List.Forall₂.cons (h a (by simp))
        (ih fun a' ha' => h a' (by simp [ha']))

namespace PlayerController

theorem playWeaponAnim_initialData (a : WeaponAction) (p : PlayerState) :
    (playWeaponAnim a p).initialData = p.initialData := by
  unfold playWeaponAnim
  split <;> rfl

theorem fireWeapon_initialData (p : PlayerState) :
    (fireWeapon p).1.initialData = p.initialData := by
  unfold fireWeapon
  rw [playWeaponAnim_initialData]

theorem onDeployFinished_initialData (p : PlayerState) :
    (onDeployFinished p).initialData = p.initialData := by
  unfold onDeployFinished
  split
  · rw [playWeaponAnim_initialData]
  · rfl

theorem onFireFinished_initialData (p : PlayerState) :
    (onFireFinished p).initialData = p.initialData := by
  unfold onFireFinished
  split
  · split <;> rw [playWeaponAnim_initialData]
  · rfl

theorem onReloadFinished_initialData (p : PlayerState) :
    (onReloadFinished p).initialData = p.initialData := by
  unfold onReloadFinished
  split
  · rw [playWeaponAnim_initialData]
  · rfl

theorem resetToInitialState_initialData (p : PlayerState) :
    (resetToInitialState p).initialData = p.initialData := by
  unfold resetToInitialState
  rw [playWeaponAnim_initialData]

theorem update_initialData (b : Bool) (w : Vec3) (y pt d : ℚ)
    (p : PlayerState) : (update b w y pt d p).initialData = p.initialData := by
  unfold update
  dsimp only
  split <;> rfl

theorem playWeaponAnim_transforms (a : WeaponAction) (p : PlayerState) :
    (playWeaponAnim a p).obj3DPosition = p.obj3DPosition
    ∧ (playWeaponAnim a p).obj3DRotation = p.obj3DRotation
    ∧ (playWeaponAnim a p).cameraPosition = p.cameraPosition
    ∧ (playWeaponAnim a p).cameraRotation = p.cameraRotation
    ∧ (playWeaponAnim a p).weaponObjPosition = p.weaponObjPosition
    ∧ (playWeaponAnim a p).weaponObjRotation = p.weaponObjRotation := by
  unfold playWeaponAnim
  split <;> exact ⟨rfl, rfl, rfl, rfl, rfl, rfl⟩

theorem resetToInitialState_transforms (p : PlayerState) :
    (resetToInitialState p).obj3DPosition = p.initialData.obj3DPosition
    ∧ (resetToInitialState p).obj3DRotation = p.initialData.obj3DRotation
    ∧ (resetToInitialState p).cameraPosition = p.initialData.cameraPosition
    ∧ (resetToInitialState p).cameraRotation = p.initialData.cameraRotation
    ∧ (resetToInitialState p).weaponObjPosition = p.initialData.weaponObjPosition
    ∧ (resetToInitialState p).weaponObjRotation = p.initialData.weaponObjRotation := by
  unfold resetToInitialState
  obtain ⟨a1, a2, a3, a4, a5, a6⟩ := playWeaponAnim_transforms WeaponAction.deploy
    { p with
        obj3DPosition := p.initialData.obj3DPosition
        obj3DRotation := p.initialData.obj3DRotation
        cameraPosition := p.initialData.cameraPosition
        cameraRotation := p.initialData.cameraRotation
        weaponObjPosition := p.initialData.weaponObjPosition
        weaponObjRotation := p.initialData.weaponObjRotation
        magAmmo := MAX_MAG_AMMO }
  exact ⟨a1, a2, a3, a4, a5, a6⟩

end PlayerController

namespace Game

open PlayerController TargetController

theorem checkTargetHits_player_initialData (cfg : TargetConfig)
    (ray : List Nat) (s : GameState) :
    (checkTargetHits cfg ray s).1.player.initialData
      = s.player.initialData := by
  by_cases hready : isWeaponReady s.player = true
  · cases ray with
    | nil => simp [checkTargetHits, hready]
    | cons idx rest =>
        cases hidx : s.targets[idx]? with
        | none => simp [checkTargetHits, hready, hidx]
        | some t =>
            by_cases hvis : t.visible = true
            · by_cases he : (TargetController.onHit t).2 = true <;>
                by_cases hk :
                    getEffectiveKillCountToWin cfg ≤ (s.killCount : Int) + 1 <;>
                  simp [checkTargetHits, hready, hidx, hvis, he, hk,
                    fireWeapon_initialData]
            · simp only [Bool.not_eq_true] at hvis
              simp [checkTargetHits, hready, hidx, hvis]
  · simp only [Bool.not_eq_true] at hready
    simp [checkTargetHits, hready]

theorem checkTargetHits_targets_cases (cfg : TargetConfig) (ray : List Nat)
    (s : GameState) :
    (checkTargetHits cfg ray s).1.targets = s.targets
    ∨ ∃ idx t, s.targets[idx]? = some t
        ∧ (checkTargetHits cfg ray s).1.targets
            = s.targets.set idx (TargetController.onHit t).1 := by
  by_cases hready : isWeaponReady s.player = true
  · cases ray with
    | nil =>
        left
        simp [checkTargetHits, hready]
    | cons idx rest =>
        cases hidx : s.targets[idx]? with
        | none =>
            left
            simp [checkTargetHits, hready, hidx]
        | some t =>
            by_cases hvis : t.visible = true
            · right
              refine ⟨idx, t, hidx, ?_⟩
              by_cases he : (TargetController.onHit t).2 = true <;>
                by_cases hk :
                    getEffectiveKillCountToWin cfg ≤ (s.killCount : Int) + 1 <;>
                  simp [checkTargetHits, hready, hidx, hvis, he, hk]
            · left
              simp only [Bool.not_eq_true] at hvis
              simp [checkTargetHits, hready, hidx, hvis]
  · left
    simp only [Bool.not_eq_true] at hready
    simp [checkTargetHits, hready]

end Game

namespace GameManager

open PlayerController TargetController Game

theorem checkTargetHits_session_inv (env : Env) (ray : List Nat)
    (u : GameState) (hpu : u.player.initialData = env.tp)
    (htu : List.Forall₂ (targetInv env.initRot) (genPositions env) u.targets) :
    (checkTargetHits env.cfg ray u).1.player.initialData = env.tp
    ∧ List.Forall₂ (targetInv env.initRot) (genPositions env)
        (checkTargetHits env.cfg ray u).1.targets := by
  refine ⟨by rw [checkTargetHits_player_initialData]; exact hpu, ?_⟩
  rcases checkTargetHits_targets_cases env.cfg ray u with h | ⟨idx, t, hidx, h⟩
  · rw [h]
    exact htu
  · rw [h]
    obtain ⟨pos, hpos, hinv⟩ := forall₂_getElem? htu idx t hidx
    refine forall₂_set htu idx _ ?_
    intro a ha
    have : a = pos := by
      rw [hpos] at ha
      cases ha
      rfl
    rw [this]
    exact targetInv_onHit env.initRot pos t hinv

theorem step_session_inv (env : Env) (s : GameState) (e : Ev)
    (hp : s.player.initialData = env.tp)
    (ht : List.Forall₂ (targetInv env.initRot) (genPositions env) s.targets) :
    (step env s e).player.initialData = env.tp
    ∧ List.Forall₂ (targetInv env.initRot) (genPositions env)
        (step env s e).targets := by
  have hanims : List.Forall₂ (targetInv env.initRot) (genPositions env)
      (updateAnimations env.sinF
        (match e with | Ev.frame inp => inp.delta | _ => 0) s.targets) :=
    forall₂_map_right ht fun pos t hinv =>
      targetInv_updateAnimationsOne env.initRot pos env.sinF _ t hinv
  cases e with
  | frame inp =>
      simp only [step]
      unfold frameStep
      dsimp only
      split
      · exact ⟨hp, hanims⟩
      · refine checkTargetHits_session_inv env inp.ray _ ?_ ?_
        · rw [update_initialData]
          exact hp
        · exact hanims
  | deployFinished =>
      simp only [step]
      exact ⟨by rw [onDeployFinished_initialData]; exact hp, ht⟩
  | fireFinished =>
      simp only [step]
      exact ⟨by rw [onFireFinished_initialData]; exact hp, ht⟩
  | reloadFinished =>
      simp only [step]
      exact ⟨by rw [onReloadFinished_initialData]; exact hp, ht⟩
  | playAgain =>
      simp only [step]
      unfold playAgainStep
      dsimp only
      constructor
      · rw [resetToInitialState_initialData, resetToInitialState_initialData]
        exact hp
      · refine forall₂_map_right ?_ fun pos t hinv =>
          (targetInv_resetTargetOne env.initRot pos env.cfg t hinv).1
        refine forall₂_map_right ht fun pos t hinv =>
          (targetInv_resetTargetOne env.initRot pos env.cfg t hinv).1

theorem foldl_session_inv (env : Env) (evs : List Ev) :
    ∀ s0 : GameState, s0.player.initialData = env.tp →
      List.Forall₂ (targetInv env.initRot) (genPositions env) s0.targets →
      (evs.foldl (step env) s0).player.initialData = env.tp
      ∧ List.Forall₂ (targetInv env.initRot) (genPositions env)
          (evs.foldl (step env) s0).targets := by
  induction evs with
  | nil => exact fun s0 h1 h2 => ⟨h1, h2⟩
  | cons e evs ih =>
      intro s0 h1 h2
      obtain ⟨g1, g2⟩ := step_session_inv env s0 e h1 h2
      exact ih (step env s0 e) g1 g2

theorem run_session_inv (env : Env) (evs : List Ev) :
    (run env evs).player.initialData = env.tp
    ∧ List.Forall₂ (targetInv env.initRot) (genPositions env)
        (run env evs).targets :=
  foldl_session_inv env evs (init env) rfl
    (forall₂_self_map _ (genPositions env) fun pos _ =>
      targetInv_mkTarget env.cfg env.initRot env.elimRot pos)

end GameManager

namespace GameManager

open PlayerController TargetController Game

/-- C6: after a play-again reset from any reachable session state, the
session equals the initial snapshot: kill count 0, not game-over, yaw and
pitch 0, a full magazine, the player / camera / weapon transforms restored
from the recorded `initialData` snapshot, and every target back at full
configured hp, not eliminated, visible, with the elimination-animation
progress cleared, its rotation back to the creation-time rotation and its
position back at its layout-generation-time value. -/
theorem claim_C6_reset_roundtrip (env : Env) (evs : List Ev) :
    (run env (evs ++ [Ev.playAgain])).killCount = 0
    ∧ (run env (evs ++ [Ev.playAgain])).isGameOver = false
    ∧ (run env (evs ++ [Ev.playAgain])).yaw = 0
    ∧ (run env (evs ++ [Ev.playAgain])).pitch = 0
    ∧ (run env (evs ++ [Ev.playAgain])).player.magAmmo = MAX_MAG_AMMO
    ∧ (run env (evs ++ [Ev.playAgain])).player.obj3DPosition
        = env.tp.obj3DPosition
    ∧ (run env (evs ++ [Ev.playAgain])).player.obj3DRotation
        = env.tp.obj3DRotation
    ∧ (run env (evs ++ [Ev.playAgain])).player.cameraPosition
        = env.tp.cameraPosition
    ∧ (run env (evs ++ [Ev.playAgain])).player.cameraRotation
        = env.tp.cameraRotation
    ∧ (run env (evs ++ [Ev.playAgain])).player.weaponObjPosition
        = env.tp.weaponObjPosition
    ∧ (run env (evs ++ [Ev.playAgain])).player.weaponObjRotation
        = env.tp.weaponObjRotation
    ∧ (run env (evs ++ [Ev.playAgain])).targets.length
        = (genPositions env).length
    ∧ (∀ (i : Nat) (t : Target) (pos : Vec3),
        (run env (evs ++ [Ev.playAgain])).targets[i]? = some t →
        (genPositions env)[i]? = some pos →
        t.hp = env.cfg.hp ∧ t.eliminated = false ∧ t.visible = true
        ∧ t.anim.isAnimating = false ∧ t.anim.animationProgress = 0
        ∧ t.rotation = env.initRot ∧ t.position = pos) := by
  have hrun : run env (evs ++ [Ev.playAgain])
      = playAgainStep env (run env evs) := by
    unfold run
    rw [List.foldl_append]
    rfl
  obtain ⟨hp, ht⟩ := run_session_inv env evs
  have hinner : List.Forall₂ (targetInv env.initRot) (genPositions env)
      (resetTargets env.cfg (run env evs).targets) :=
    forall₂_map_right ht fun pos t hinv =>
      (targetInv_resetTargetOne env.initRot pos env.cfg t hinv).1
  have hfinal : List.Forall₂
      (fun pos t =>
        t.hp = env.cfg.hp ∧ t.eliminated = false ∧ t.visible = true
        ∧ t.anim.isAnimating = false ∧ t.anim.animationProgress = 0
        ∧ t.rotation = env.initRot ∧ t.position = pos)
      (genPositions env)
      (resetTargets env.cfg (resetTargets env.cfg (run env evs).targets)) :=
    forall₂_map_right hinner fun pos t hinv =>
      (targetInv_resetTargetOne env.initRot pos env.cfg t hinv).2
  have hinner1 : (resetToInitialState (run env evs).player).initialData
      = env.tp := by
    rw [resetToInitialState_initialData]
    exact hp
  obtain ⟨b1, b2, b3, b4, b5, b6⟩ :=
    resetToInitialState_transforms (resetToInitialState (run env evs).player)
  rw [hrun]
  refine ⟨rfl, rfl, rfl, rfl, ?_, ?_, ?_, ?_, ?_, ?_, ?_, ?_, ?_⟩
  · exact resetToInitialState_magAmmo _
  · rw [show (playAgainStep env (run env evs)).player.obj3DPosition
        = (resetToInitialState (resetToInitialState (run env evs).player)).obj3DPosition
        from rfl, b1, hinner1]
  · rw [show (playAgainStep env (run env evs)).player.obj3DRotation
        = (resetToInitialState (resetToInitialState (run env evs).player)).obj3DRotation
        from rfl, b2, hinner1]
  · rw [show (playAgainStep env (run env evs)).player.cameraPosition
        = (resetToInitialState (resetToInitialState (run env evs).player)).cameraPosition
        from rfl, b3, hinner1]
  · rw [show (playAgainStep env (run env evs)).player.cameraRotation
        = (resetToInitialState (resetToInitialState (run env evs).player)).cameraRotation
        from rfl, b4, hinner1]
  · rw [show (playAgainStep env (run env evs)).player.weaponObjPosition
        = (resetToInitialState (resetToInitialState (run env evs).player)).weaponObjPosition
        from rfl, b5, hinner1]
  · rw [show (playAgainStep env (run env evs)).player.weaponObjRotation
        = (resetToInitialState (resetToInitialState (run env evs).player)).weaponObjRotation
        from rfl, b6, hinner1]
  · exact hfinal.length_eq.symm
  · intro i t pos htg hpos
    obtain ⟨a, ha, hPa⟩ := forall₂_getElem? hfinal i t htg
    have : a = pos := by
      rw [hpos] at ha
      cases ha
      rfl
    rw [← this]
    exact hPa

end GameManager

namespace GameManager

/-- Closed instantiation of `claim_C6_reset_roundtrip` on a one-target
linear session: after the play-again event, kill count 0, full magazine,
one target restored to full hp, visible, unrotated and unarmed. -/
theorem claim_C6_reset_roundtrip_witness :
    (run resetWitnessEnv ([] ++ [Ev.playAgain])).killCount = 0
    ∧ (run resetWitnessEnv ([] ++ [Ev.playAgain])).player.magAmmo
        = MAX_MAG_AMMO
    ∧ (run resetWitnessEnv ([] ++ [Ev.playAgain])).targets.length
        = (genPositions resetWitnessEnv).length
    ∧ (run resetWitnessEnv ([] ++ [Ev.playAgain])).targets[0]?.map
        (fun t => (t.hp, t.eliminated, t.visible, t.anim.isAnimating,
          t.anim.animationProgress, t.rotation))
      = some (1, false, true, false, 0, ⟨0, 0, 0⟩) := by
  have H := claim_C6_reset_roundtrip resetWitnessEnv []
  refine ⟨H.1, H.2.2.2.2.1, H.2.2.2.2.2.2.2.2.2.2.2.1, ?_⟩
  have hgen : (genPositions resetWitnessEnv).length = 1 := by decide
  have hlen : (run resetWitnessEnv ([] ++ [Ev.playAgain])).targets.length = 1 := by
    rw [H.2.2.2.2.2.2.2.2.2.2.2.1, hgen]
  cases htg : (run resetWitnessEnv ([] ++ [Ev.playAgain])).targets[0]? with
  | none =>
      exfalso
      rw [List.getElem?_eq_none_iff] at htg
      omega
  | some t =>
      cases hpos : (genPositions resetWitnessEnv)[0]? with
      | none =>
          exfalso
          rw [List.getElem?_eq_none_iff] at hpos
          omega
      | some pos =>
          obtain ⟨f1, f2, f3, f4, f5, f6, _⟩ :=
            H.2.2.2.2.2.2.2.2.2.2.2.2 0 t pos htg hpos
          simp only [Option.map_some']
          rw [f1, f2, f3, f4, f5, f6]
          rfl

end GameManager
